import Mathlib

/-!
Verification of the KnowledgeBase core (`polar-core/src/kb.rs`) of the oso
authorization policy engine: the term data model, the rule-type (shape)
validator (`validate_rules` / `rule_params_match` and its helpers), the
source registry (`add_source` / `check_file`) and the KB lifecycle
(`clear_rules`).

The embedding translates `kb.rs` directly.  Supporting types that live in
sibling modules (`terms.rs`, `rules.rs`, `sources.rs`, `counter.rs`,
`resource_block.rs`) are not part of the provided sources; those are
modelled from the specification and are marked `Modelled from the spec:`
in their doc comments.

Machine integers (`u64` ids, instance ids) are modelled as `Nat`; the id
counters wrap at 2^52 as the spec requires.  Rust's `f64` payloads are
modelled as opaque bit patterns (`Nat`) compared bitwise; no claim depends
on floating-point arithmetic or float equality.  `HashMap`/`BTreeMap`
values are modelled as association lists with first-match lookup (real
maps never hold duplicate keys, so well-formed states have distinct keys).
Fallible operations return `Except`, and methods that mutate the KB take
and return the `KnowledgeBase` state explicitly.
-/

namespace Polar

/-- Modelled from the spec: a `Numeric` is either an integer or a float;
float payloads are uninterpreted bit patterns (no claim compares floats). -/
inductive Numeric where
  | Integer (i : Int)
  | Float (bits : Nat)
deriving DecidableEq, Repr

mutual
/-- Modelled from the spec: the `Value` variants of a `Term` (terms.rs).
A `Term` is a value plus an optional source span; the span never affects
term equality (Rust `PartialEq` on `Term` compares values), so terms are
embedded as bare values. -/
inductive Value where
  | Variable (s : String)
  | RestVariable (s : String)
  | String (s : String)
  | Number (n : Numeric)
  | Boolean (b : Bool)
  | List (l : List Value)
  | Dictionary (fields : List (String × Value))
  | Pattern (p : Pattern)
  | ExternalInstance (instance_id : Nat)
  | Expression (operator : String) (args : List Value)
  | Call (name : String) (args : List Value)

/-- Modelled from the spec: `Pattern` is an instance literal
(tag plus fields) or a dictionary of fields. -/
inductive Pattern where
  | Instance (tag : String) (fields : List (String × Value))
  | Dictionary (fields : List (String × Value))
end

/-- Dictionary fields: an ordered association of keys to values
(`BTreeMap<Symbol, Term>` in the source). -/
abbrev Fields := List (String × Value)

mutual

/-- Structural equality on values (Rust derived `PartialEq`, with `Term`
equality ignoring source spans). -/
def valueBeq : Value → Value → Bool
  | .Variable a, .Variable b => a == b
  | .RestVariable a, .RestVariable b => a == b
  | .String a, .String b => a == b
  | .Number a, .Number b => a == b
  | .Boolean a, .Boolean b => a == b
  | .List a, .List b => listBeq a b
  | .Dictionary a, .Dictionary b => fieldsBeq a b
  | .Pattern a, .Pattern b => patternBeq a b
  | .ExternalInstance a, .ExternalInstance b => a == b
  | .Expression o1 a1, .Expression o2 a2 => o1 == o2 && listBeq a1 a2
  | .Call n1 a1, .Call n2 a2 => n1 == n2 && listBeq a1 a2
  | _, _ => false
termination_by structural a => a

/-- Structural equality on patterns. -/
def patternBeq : Pattern → Pattern → Bool
  | .Instance t1 f1, .Instance t2 f2 => t1 == t2 && fieldsBeq f1 f2
  | .Dictionary f1, .Dictionary f2 => fieldsBeq f1 f2
  | _, _ => false
termination_by structural a => a

/-- Structural equality on value lists. -/
def listBeq : List Value → List Value → Bool
  | [], [] => true
  | a :: as_, b :: bs => valueBeq a b && listBeq as_ bs
  | _, _ => false
termination_by structural a => a

/-- Structural equality on field lists. -/
def fieldsBeq : Fields → Fields → Bool
  | [], [] => true
  | (k1, v1) :: fs, (k2, v2) :: gs => k1 == k2 && valueBeq v1 v2 && fieldsBeq fs gs
  | _, _ => false
termination_by structural a => a

end

theorem beq_sound_bundle : ∀ n : Nat,
    (∀ a b : Value, sizeOf a ≤ n → valueBeq a b = true → a = b) ∧
    (∀ p q : Pattern, sizeOf p ≤ n → patternBeq p q = true → p = q) ∧
    (∀ l m : List Value, sizeOf l ≤ n → listBeq l m = true → l = m) ∧
    (∀ f g : Fields, sizeOf f ≤ n → fieldsBeq f g = true → f = g) := by
  intro n
  induction n with
  | zero =>
    refine ⟨?_, ?_, ?_, ?_⟩ <;> intro a b h hb <;> exfalso <;> cases a <;> simp at h
  | succ n ih =>
    obtain ⟨ihv, ihp, ihl, ihf⟩ := ih
    refine ⟨?_, ?_, ?_, ?_⟩
    · intro a b hsz hb
      cases a <;> cases b <;> try exact absurd hb (fun h => Bool.noConfusion h)
      case Variable.Variable => simp only [valueBeq] at hb; simpa using eq_of_beq hb
      case RestVariable.RestVariable => simp only [valueBeq] at hb; simpa using eq_of_beq hb
      case String.String => simp only [valueBeq] at hb; simpa using eq_of_beq hb
      case Number.Number => simp only [valueBeq] at hb; simpa using eq_of_beq hb
      case Boolean.Boolean => simp only [valueBeq] at hb; simpa using eq_of_beq hb
      case List.List l m =>
        simp only [valueBeq] at hb
        simp only [Value.List.sizeOf_spec] at hsz
        simpa using ihl l m (by omega) hb
      case Dictionary.Dictionary f g =>
        simp only [valueBeq] at hb
        simp only [Value.Dictionary.sizeOf_spec] at hsz
        simpa using ihf f g (by omega) hb
      case Pattern.Pattern p q =>
        simp only [valueBeq] at hb
        simp only [Value.Pattern.sizeOf_spec] at hsz
        simpa using ihp p q (by omega) hb
      case ExternalInstance.ExternalInstance =>
        simp only [valueBeq] at hb; simpa using eq_of_beq hb
      case Expression.Expression o1 a1 o2 a2 =>
        simp only [valueBeq, Bool.and_eq_true] at hb
        simp only [Value.Expression.sizeOf_spec] at hsz
        have h1 := eq_of_beq hb.1
        have h2 := ihl a1 a2 (by omega) hb.2
        simp [h1, h2]
      case Call.Call n1 a1 n2 a2 =>
        simp only [valueBeq, Bool.and_eq_true] at hb
        simp only [Value.Call.sizeOf_spec] at hsz
        have h1 := eq_of_beq hb.1
        have h2 := ihl a1 a2 (by omega) hb.2
        simp [h1, h2]
    · intro p q hsz hb
      cases p <;> cases q <;> try exact absurd hb (fun h => Bool.noConfusion h)
      case Instance.Instance t1 f1 t2 f2 =>
        simp only [patternBeq, Bool.and_eq_true] at hb
        simp only [Pattern.Instance.sizeOf_spec] at hsz
        have h1 := eq_of_beq hb.1
        have h2 := ihf f1 f2 (by omega) hb.2
        simp [h1, h2]
      case Dictionary.Dictionary f1 f2 =>
        simp only [patternBeq] at hb
        simp only [Pattern.Dictionary.sizeOf_spec] at hsz
        simpa using ihf f1 f2 (by omega) hb
    · intro l m hsz hb
      cases l with
      | nil =>
        cases m with
        | nil => rfl
        | cons b bs => exact absurd hb (fun h => Bool.noConfusion h)
      | cons a as_ =>
        cases m with
        | nil => exact absurd hb (fun h => Bool.noConfusion h)
        | cons b bs =>
          simp only [listBeq, Bool.and_eq_true] at hb
          simp only [List.cons.sizeOf_spec] at hsz
          have h1 := ihv a b (by omega) hb.1
          have h2 := ihl as_ bs (by omega) hb.2
          simp [h1, h2]
    · intro f g hsz hb
      cases f with
      | nil =>
        cases g with
        | nil => rfl
        | cons b bs => exact absurd hb (fun h => Bool.noConfusion h)
      | cons kv fs =>
        cases g with
        | nil => exact absurd hb (fun h => Bool.noConfusion h)
        | cons kw gs =>
          obtain ⟨k1, v1⟩ := kv
          obtain ⟨k2, v2⟩ := kw
          simp only [fieldsBeq, Bool.and_eq_true] at hb
          simp only [List.cons.sizeOf_spec, Prod.mk.sizeOf_spec] at hsz
          have h1 := eq_of_beq hb.1.1
          have h2 := ihv v1 v2 (by omega) hb.1.2
          have h3 := ihf fs gs (by omega) hb.2
          simp [h1, h2, h3]

mutual

theorem valueBeq_refl : (a : Value) → valueBeq a a = true
  | .Variable _ => by simp [valueBeq]
  | .RestVariable _ => by simp [valueBeq]
  | .String _ => by simp [valueBeq]
  | .Number _ => by simp [valueBeq]
  | .Boolean _ => by simp [valueBeq]
  | .List l => by simp [valueBeq, listBeq_refl l]
  | .Dictionary f => by simp [valueBeq, fieldsBeq_refl f]
  | .Pattern p => by simp [valueBeq, patternBeq_refl p]
  | .ExternalInstance _ => by simp [valueBeq]
  | .Expression o a => by simp [valueBeq, listBeq_refl a]
  | .Call n a => by simp [valueBeq, listBeq_refl a]

theorem patternBeq_refl : (p : Pattern) → patternBeq p p = true
  | .Instance t f => by simp [patternBeq, fieldsBeq_refl f]
  | .Dictionary f => by simp [patternBeq, fieldsBeq_refl f]

theorem listBeq_refl : (l : List Value) → listBeq l l = true
  | [] => rfl
  | a :: as_ => by simp [listBeq, valueBeq_refl a, listBeq_refl as_]

theorem fieldsBeq_refl : (f : Fields) → fieldsBeq f f = true
  | [] => rfl
  | (k, v) :: fs => by simp [fieldsBeq, valueBeq_refl v, fieldsBeq_refl fs]

end

theorem valueBeq_iff_eq {a b : Value} : valueBeq a b = true ↔ a = b := by
  constructor
  · exact (beq_sound_bundle (sizeOf a)).1 a b le_rfl
  · rintro rfl; exact valueBeq_refl a

theorem patternBeq_iff_eq {p q : Pattern} : patternBeq p q = true ↔ p = q := by
  constructor
  · exact (beq_sound_bundle (sizeOf p)).2.1 p q le_rfl
  · rintro rfl; exact patternBeq_refl p

instance : DecidableEq Value := fun a b =>
  decidable_of_iff (valueBeq a b = true) valueBeq_iff_eq

instance : DecidableEq Pattern := fun p q =>
  decidable_of_iff (patternBeq p q = true) patternBeq_iff_eq

instance {ε α : Type} [DecidableEq ε] [DecidableEq α] : DecidableEq (Except ε α) := fun a b =>
  match a, b with
  | .ok x, .ok y =>
    if h : x = y then .isTrue (by rw [h]) else .isFalse (fun hh => h (Except.ok.inj hh))
  | .error x, .error y =>
    if h : x = y then .isTrue (by rw [h]) else .isFalse (fun hh => h (Except.error.inj hh))
  | .ok _, .error _ => .isFalse (fun hh => Except.noConfusion hh)
  | .error _, .ok _ => .isFalse (fun hh => Except.noConfusion hh)

/-- First-match association-list lookup, modelling `HashMap` / `BTreeMap`
lookup (real maps never hold duplicate keys). -/
def alookup {α : Type} : List (String × α) → String → Option α
  | [], _ => none
  | (k, v) :: rest, key => if k == key then some v else alookup rest key

/-- Insert-or-replace, modelling `HashMap::insert`. -/
def ainsert {α : Type} : List (String × α) → String → α → List (String × α)
  | [], key, v => [(key, v)]
  | (k, w) :: rest, key, v =>
    if k == key then (key, v) :: rest else (k, w) :: ainsert rest key v

/-- An instance literal: specializer tag plus fields (terms.rs
`InstanceLiteral`). -/
structure InstanceLiteral where
  tag : String
  fields : Fields
deriving DecidableEq

mutual

/-- Modelled from the spec: polar-syntax rendering of terms (`to_polar` /
`Display` in terms.rs). It appears only inside diagnostic message payloads,
which no claim inspects. -/
def valueToPolar : Value → String
  | .Variable s => s
  | .RestVariable s => "*" ++ s
  | .String s => "\"" ++ s ++ "\""
  | .Number (.Integer i) => toString i
  | .Number (.Float bits) => "<float " ++ toString bits ++ ">"
  | .Boolean b => if b then "true" else "false"
  | .List l => "[" ++ listToPolar l ++ "]"
  | .Dictionary f => "\x7b" ++ fieldsToPolar f ++ "\x7d"
  | .Pattern p => patternToPolar p
  | .ExternalInstance i => "^\x7bid: " ++ toString i ++ "\x7d"
  | .Expression o args => o ++ "(" ++ listToPolar args ++ ")"
  | .Call n args => n ++ "(" ++ listToPolar args ++ ")"
termination_by structural v => v

/-- Modelled from the spec: polar-syntax rendering of patterns. -/
def patternToPolar : Pattern → String
  | .Instance tag f => tag ++ "\x7b" ++ fieldsToPolar f ++ "\x7d"
  | .Dictionary f => "\x7b" ++ fieldsToPolar f ++ "\x7d"
termination_by structural p => p

/-- Modelled from the spec: comma-separated rendering of a term list. -/
def listToPolar : List Value → String
  | [] => ""
  | [v] => valueToPolar v
  | v :: rest => valueToPolar v ++ ", " ++ listToPolar rest
termination_by structural l => l

/-- Modelled from the spec: comma-separated rendering of dictionary fields. -/
def fieldsToPolar : Fields → String
  | [] => ""
  | [(k, v)] => k ++ ": " ++ valueToPolar v
  | (k, v) :: rest => k ++ ": " ++ valueToPolar v ++ ", " ++ fieldsToPolar rest
termination_by structural f => f

end

/-- Modelled from the spec: rendering of an instance literal. -/
def instanceToPolar (lit : InstanceLiteral) : String :=
  patternToPolar (.Instance lit.tag lit.fields)

/-- A rule-head parameter: the parameter term (a variable or a literal
value) and an optional specializer (a pattern or a value). -/
structure Parameter where
  parameter : Value
  specializer : Option Value
deriving DecidableEq

/-- A rule (or rule-type template): name, parameters, body, and the
required flag used for rule types. Real rules also carry a source id and
span; the validator never inspects them, so they are not modelled. -/
structure Rule where
  name : String
  params : List Parameter
  body : Value
  required : Bool
deriving DecidableEq

/-- Modelled from the spec: rendering of a parameter. -/
def paramToPolar (p : Parameter) : String :=
  valueToPolar p.parameter ++
    (match p.specializer with
     | some s => ": " ++ valueToPolar s
     | none => "")

/-- Modelled from the spec: rendering of a parameter list. -/
def paramsToPolar : List Parameter → String
  | [] => ""
  | [p] => paramToPolar p
  | p :: rest => paramToPolar p ++ ", " ++ paramsToPolar rest

/-- Modelled from the spec: rendering of a rule head. -/
def ruleToPolar (r : Rule) : String :=
  r.name ++ "(" ++ paramsToPolar r.params ++ ");"

/-- Modelled from the spec: a generic rule is the collection of rules
sharing a name; rules are keyed internally by an opaque id, and only the
iteration over them matters to the validator. -/
structure GenericRule where
  name : String
  rules : List Rule
deriving DecidableEq

/-- Modelled from the spec: the rule-type store — per-name ordered lists of
rule-type templates (rules.rs `RuleTypes`). `add` tracks a template in the
required set exactly when its `required` flag is set, so the required set
is the ordered subset of templates with the flag. -/
structure RuleTypes where
  types : List (String × List Rule)
deriving DecidableEq

/-- Rule types registered under a name. -/
def RuleTypes.get (rt : RuleTypes) (name : String) : Option (List Rule) :=
  alookup rt.types name

/-- Append a rule type to the list under its name. -/
def RuleTypes.add (rt : RuleTypes) (rule_type : Rule) : RuleTypes :=
  match alookup rt.types rule_type.name with
  | some l => ⟨ainsert rt.types rule_type.name (l ++ [rule_type])⟩
  | none => ⟨ainsert rt.types rule_type.name [rule_type]⟩

/-- The required rule types, in store order. -/
def RuleTypes.required_rule_types (rt : RuleTypes) : List Rule :=
  ((rt.types.map Prod.snd).flatten).filter (fun r => r.required)

/-- Modelled from the spec: `reset` restores the empty default store. -/
def RuleTypes.reset (_ : RuleTypes) : RuleTypes := ⟨[]⟩

/-- A source file: contents plus optional filename. -/
structure Source where
  src : String
  filename : Option String
deriving DecidableEq

/-- Modelled from the spec: the id → Source store (sources.rs). -/
structure Sources where
  sources : List (Nat × Source)
deriving DecidableEq

/-- Modelled from the spec: record a source under its id. -/
def Sources.add_source (ss : Sources) (source : Source) (id : Nat) : Sources :=
  ⟨(id, source) :: ss.sources⟩

/-- Ids wrap at 52 bits so they can be coerced to IEEE-754 doubles. -/
def MAX_ID : Nat := 2 ^ 52

/-- Modelled from the spec: a monotonic id generator wrapping at 2^52
(counter.rs `Counter`). -/
structure Counter where
  value : Nat
deriving DecidableEq

/-- Modelled from the spec: dispense the current id and advance, mod 2^52. -/
def Counter.next (c : Counter) : Nat × Counter :=
  (c.value % MAX_ID, ⟨(c.value + 1) % MAX_ID⟩)

/-- Modelled from the spec: a shorthand rule inside a resource block —
`head if implier` optionally followed by `on relation`. -/
structure ShorthandRule where
  head : Value
  implier : Value
  relation : Option (String × Value)
deriving DecidableEq

/-- Modelled from the spec: declared kind of a role / permission /
relation name inside a resource block. -/
inductive DeclarationKind where
  | Role
  | Permission
  | Relation (t : Value)
deriving DecidableEq

/-- Modelled from the spec: resource-block bookkeeping
(resource_block.rs `ResourceBlocks`); the shape validator reads only
`actors` and `resources` (the union member sets). -/
structure ResourceBlocks where
  actors : List Value
  resources : List Value
  declarations : List (Value × List (String × DeclarationKind))
  shorthand_rules : List (Value × List ShorthandRule)
deriving DecidableEq

/-- Modelled from the spec: clear all resource-block bookkeeping. -/
def ResourceBlocks.clear (_ : ResourceBlocks) : ResourceBlocks := ⟨[], [], [], []⟩

/-- Runtime errors surfaced directly by mutating APIs. -/
inductive RuntimeError where
  | FileLoading (msg : String)
  | InvalidRegistration (msg : String) (sym : String)
  | InvalidState (msg : String)
deriving DecidableEq

/-- Validation errors produced by the shape validator. -/
inductive ValidationError where
  | InvalidRule (rule : Rule) (msg : String)
  | InvalidRuleType (rule_type : Rule) (msg : String)
  | MissingRequiredRule (rule_type : Rule)
  | UnregisteredClass (term : Value)
deriving DecidableEq

/-- Diagnostics returned by `validate_rules`. `with_context` only enriches
an error with source context for display and is modelled as the identity. -/
inductive Diagnostic where
  | Error (e : ValidationError)
deriving DecidableEq

/-- Outcome of matching one rule (parameter) against one rule type. -/
inductive RuleParamMatch where
  | True
  | False (msg : String)
deriving DecidableEq

/-- Result type of the validator helpers. -/
abbrev ValidationResult (α : Type) := Except ValidationError α

/-- The two reserved union tags. -/
def ACTOR_UNION_NAME : String := "Actor"

/-- The two reserved union tags. -/
def RESOURCE_UNION_NAME : String := "Resource"

/-- Symbols are interned name strings; equality is by name. -/
abbrev Symbol := String

/-- Modelled from the spec: `Value::as_symbol` — the symbol of a
variable-valued term. -/
def Value.as_symbol : Value → Option Symbol
  | .Variable s => some s
  | .RestVariable s => some s
  | _ => none

/-- Modelled from the spec: a term is the Actor union tag iff its symbol is
`Actor` (terms.rs `is_actor_union`). -/
def Value.is_actor_union : Value → Bool
  | .Variable s => s == ACTOR_UNION_NAME
  | _ => false

/-- Modelled from the spec: a term is the Resource union tag iff its symbol
is `Resource` (terms.rs `is_resource_union`). -/
def Value.is_resource_union : Value → Bool
  | .Variable s => s == RESOURCE_UNION_NAME
  | _ => false

/-- Modelled from the spec: `has_rest_var` (terms.rs) — whether a list
contains a rest-variable. -/
def has_rest_var (l : List Value) : Bool :=
  l.any fun t =>
    match t with
    | .RestVariable _ => true
    | _ => false

/-- The knowledge base (kb.rs `KnowledgeBase`). Maps are association
lists; both counters are explicit state. -/
structure KnowledgeBase where
  constants : List (String × Value)
  mro : List (String × List Nat)
  loaded_files : List (String × Nat)
  loaded_content : List (String × String)
  rules : List (String × GenericRule)
  rule_types : RuleTypes
  sources : Sources
  gensym_counter : Counter
  id_counter : Counter
  inline_queries : List Value
  resource_blocks : ResourceBlocks
deriving DecidableEq

/-- `new_id`: dispense a monotonically increasing id. -/
def KnowledgeBase.new_id (kb : KnowledgeBase) : Nat × KnowledgeBase :=
  let (id, c) := kb.id_counter.next
  (id, { kb with id_counter := c })

/-- `register_constant`: define a constant, refusing the union tags. -/
def KnowledgeBase.register_constant (kb : KnowledgeBase) (name : String) (value : Value) :
    Except RuntimeError KnowledgeBase :=
  if name == ACTOR_UNION_NAME || name == RESOURCE_UNION_NAME then
    .error (.InvalidRegistration ("\x27" ++ name ++ "\x27 is a built-in specializer.") name)
  else
    .ok { kb with constants := ainsert kb.constants name value }

/-- `is_constant`: whether a constant with the given name is defined. -/
def KnowledgeBase.is_constant (kb : KnowledgeBase) (name : String) : Bool :=
  (alookup kb.constants name).isSome

/-- `add_mro`: store the MRO list for a registered class. -/
def KnowledgeBase.add_mro (kb : KnowledgeBase) (name : String) (mro : List Nat) :
    Except RuntimeError KnowledgeBase :=
  if !(kb.is_constant name) then
    .error (.InvalidState ("Cannot add MRO for unregistered class " ++ name))
  else
    .ok { kb with mro := ainsert kb.mro name mro }

/-- `get_registered_class`: look the class symbol up among registered
constants. The source `expect`s the term to be a symbol; the validator only
calls it on symbol terms, and a non-symbol term is mapped to the (never
registered) empty name. -/
def KnowledgeBase.get_registered_class (kb : KnowledgeBase) (class_ : Value) :
    ValidationResult Value :=
  match alookup kb.constants ((Value.as_symbol class_).getD "") with
  | some t => .ok t
  | none => .error (.UnregisteredClass class_)

/-- `add_rule`: append a rule to the generic rule of its name, creating the
generic rule if absent. -/
def KnowledgeBase.add_rule (kb : KnowledgeBase) (rule : Rule) : KnowledgeBase :=
  match alookup kb.rules rule.name with
  | some gr => { kb with rules := ainsert kb.rules rule.name ⟨gr.name, gr.rules ++ [rule]⟩ }
  | none => { kb with rules := ainsert kb.rules rule.name ⟨rule.name, [rule]⟩ }

/-- `add_rule_type`: append a rule type to the store. -/
def KnowledgeBase.add_rule_type (kb : KnowledgeBase) (rule_type : Rule) : KnowledgeBase :=
  { kb with rule_types := kb.rule_types.add rule_type }

/-- `param_fields_match`: rule fields must be a superset of the rule-type
fields, with equal values (no recursive field-level subsumption). -/
def param_fields_match (type_fields rule_fields : Fields) : Bool :=
  type_fields.all fun kv =>
    match alookup rule_fields kv.1 with
    | some rule_value => valueBeq rule_value kv.2
    | none => false

/-- The specializer-fields mismatch message repeated throughout `kb.rs`. -/
def fieldsMismatchMsg (rule_instance : InstanceLiteral) (index : Nat)
    (rule_type_instance : InstanceLiteral) : String :=
  "Rule specializer " ++ instanceToPolar rule_instance ++ " on parameter " ++
    toString index ++ " did not match rule type specializer " ++
    instanceToPolar rule_type_instance ++
    " because the specializer fields did not match."

/-- `check_rule_instance_is_subclass_of_rule_type_instance`: decide the
subclass relation from the MRO list of the rule-side tag and the instance
id of the rule-type-side tag. -/
def KnowledgeBase.check_rule_instance_is_subclass_of_rule_type_instance
    (kb : KnowledgeBase) (rule_instance rule_type_instance : InstanceLiteral)
    (index : Nat) : ValidationResult RuleParamMatch := do
  let term ← kb.get_registered_class (.Variable rule_type_instance.tag)
  match term with
  | .ExternalInstance instance_id =>
    match alookup kb.mro rule_instance.tag with
    | some rule_mro =>
      if !(rule_mro.contains instance_id) then
        .ok (.False ("Rule specializer " ++ rule_instance.tag ++ " on parameter " ++
          toString index ++ " must match rule type specializer " ++ rule_type_instance.tag))
      else if !(param_fields_match rule_type_instance.fields rule_instance.fields) then
        .ok (.False (fieldsMismatchMsg rule_instance index rule_type_instance))
      else
        .ok .True
    | none =>
      .ok (.False ("Rule specializer " ++ rule_instance.tag ++ " on parameter " ++
        toString index ++ " is not registered as a class."))
  | _ =>
    .ok (.False ("Rule type specializer " ++ rule_type_instance.tag ++ " on parameter " ++
      toString index ++
      " should be a registered class, but instead it\x27s registered as a constant with value: " ++
      valueToPolar term))

/-- `is_union`: true iff the term is one of the two reserved union tags. -/
def KnowledgeBase.is_union (_kb : KnowledgeBase) (maybe_union : Value) : Bool :=
  maybe_union.is_actor_union || maybe_union.is_resource_union

/-- `get_union_members`: actors for the Actor union, resources for the
Resource union. The source is `unreachable!` on any other term; modelled as
the empty set there (no caller reaches it). -/
def KnowledgeBase.get_union_members (kb : KnowledgeBase) (union : Value) : List Value :=
  if union.is_actor_union then kb.resource_blocks.actors
  else if union.is_resource_union then kb.resource_blocks.resources
  else []

/-- The member loop inside `check_pattern_param`: try the subclass check
against each union member (fields copied from the rule-type instance).
Success is sticky, a structural error aborts immediately, and the loop
does not break on success. -/
def KnowledgeBase.check_union_member_loop (kb : KnowledgeBase)
    (rule_instance : InstanceLiteral) (rule_type_fields : Fields) (index : Nat) :
    List Value → Bool → ValidationResult Bool
  | [], success => .ok success
  | member :: rest, success => do
    let rti : InstanceLiteral := ⟨(Value.as_symbol member).getD "", rule_type_fields⟩
    let r ← kb.check_rule_instance_is_subclass_of_rule_type_instance rule_instance rti index
    match r with
    | .True => kb.check_union_member_loop rule_instance rule_type_fields index rest true
    | .False _ => kb.check_union_member_loop rule_instance rule_type_fields index rest success

/-- The member-of-union failure message, with its block-declaration hints. -/
def memberHintMsg (rTag : String) (index : Nat) (rtTag : String) : String :=
  let base := "Rule specializer " ++ rTag ++ " on parameter " ++ toString index ++
    " must be a member of rule type specializer " ++ rtTag
  if rtTag == ACTOR_UNION_NAME then
    base ++
      "\n\n\tPerhaps you meant to add an actor block to the top of your policy, like this:\n\n\t  actor " ++
      rTag ++ " \x7b\x7d"
  else if rtTag == RESOURCE_UNION_NAME then
    base ++
      "\n\n\tPerhaps you meant to add a resource block to your policy, like this:\n\n\t  resource " ++
      rTag ++ " \x7b .. \x7d"
  else base

/-- `check_pattern_param`: match a rule pattern specializer against a rule
type pattern specializer. -/
def KnowledgeBase.check_pattern_param (kb : KnowledgeBase) (index : Nat)
    (rule_pattern rule_type_pattern : Pattern) : ValidationResult RuleParamMatch :=
  match rule_type_pattern, rule_pattern with
  | .Instance rtTag rtFields, .Instance rTag rFields =>
    if rtTag == rTag then
      if param_fields_match rtFields rFields then .ok .True
      else .ok (.False (fieldsMismatchMsg ⟨rTag, rFields⟩ index ⟨rtTag, rtFields⟩))
    else if kb.is_union (.Variable rtTag) then
      if kb.is_union (.Variable rTag) then
        -- Both specializers are unions; the tags are known to differ here,
        -- so this always reports a mismatch (kept as in the source).
        if rTag == rtTag then
          if param_fields_match rtFields rFields then .ok .True
          else .ok (.False (fieldsMismatchMsg ⟨rTag, rFields⟩ index ⟨rtTag, rtFields⟩))
        else
          .ok (.False ("Rule specializer " ++ rTag ++ " on parameter " ++ toString index ++
            " does not match rule type specializer " ++ rtTag))
      else
        if !((kb.get_union_members (.Variable rtTag)).any
            (fun m => valueBeq m (.Variable rTag))) then do
          let success ← kb.check_union_member_loop ⟨rTag, rFields⟩ rtFields index
            (kb.get_union_members (.Variable rtTag)) false
          if !success then
            .ok (.False (memberHintMsg rTag index rtTag))
          else if !(param_fields_match rtFields rFields) then
            .ok (.False (fieldsMismatchMsg ⟨rTag, rFields⟩ index ⟨rtTag, rtFields⟩))
          else .ok .True
        else if !(param_fields_match rtFields rFields) then
          .ok (.False (fieldsMismatchMsg ⟨rTag, rFields⟩ index ⟨rtTag, rtFields⟩))
        else .ok .True
    else
      kb.check_rule_instance_is_subclass_of_rule_type_instance
        ⟨rTag, rFields⟩ ⟨rtTag, rtFields⟩ index
  | .Dictionary rtFields, .Dictionary rFields
  | .Dictionary rtFields, .Instance _ rFields =>
    if param_fields_match rtFields rFields then .ok .True
    else .ok (.False ("Specializer mismatch on parameter " ++ toString index ++
      ". Rule specializer fields " ++ fieldsToPolar rFields ++
      " do not match rule type specializer fields " ++ fieldsToPolar rtFields ++ "."))
  | .Instance tag rtFields, .Dictionary rFields =>
    if tag == "Dictionary" then
      if param_fields_match rtFields rFields then .ok .True
      else .ok (.False ("Specializer mismatch on parameter " ++ toString index ++
        ". Rule specializer fields " ++ fieldsToPolar rFields ++
        " do not match rule type specializer fields " ++ fieldsToPolar rtFields ++ "."))
    else
      -- The source prints the rule-type pattern under the label "Rule
      -- parameter" (and vice versa); kept as in the source.
      .ok (.False ("Mismatch on parameter " ++ toString index ++ ". Rule parameter " ++
        patternToPolar rule_type_pattern ++ " does not match rule type parameter " ++
        patternToPolar rule_pattern ++ "."))

/-- `check_value_param`: match a rule value against a rule-type value
(`&self` is unused in the source once `param_fields_match` is a free
function). -/
def KnowledgeBase.check_value_param (_kb : KnowledgeBase) (index : Nat)
    (rule_value rule_type_value : Value) (rule_type : Rule) :
    ValidationResult RuleParamMatch :=
  match rule_type_value, rule_value with
  | .List rule_type_list, .List rule_list =>
    if has_rest_var rule_type_list then
      .error (.InvalidRuleType rule_type "Rule types cannot contain *rest variables.")
    else if rule_type_list.all (fun t => rule_list.any (fun u => valueBeq u t)) then
      .ok .True
    else
      .ok (.False ("Invalid parameter " ++ toString index ++ ". Rule type expected list " ++
        valueToPolar (.List rule_type_list) ++ ", got list " ++
        valueToPolar (.List rule_list) ++ "."))
  | .Dictionary rule_type_fields, .Dictionary rule_fields =>
    if param_fields_match rule_type_fields rule_fields then .ok .True
    else .ok (.False ("Invalid parameter " ++ toString index ++
      ". Rule type expected Dictionary with fields " ++ fieldsToPolar rule_type_fields ++
      ", got Dictionary with fields " ++ fieldsToPolar rule_fields))
  | _, _ =>
    if valueBeq rule_type_value rule_value then .ok .True
    else .ok (.False ("Invalid parameter " ++ toString index ++ ". Rule value " ++
      valueToPolar rule_value ++ " != rule type value " ++ valueToPolar rule_type_value))

/-- `check_param`: check a single rule parameter against a rule type
parameter. The decision table mirrors the source match, first arm wins. -/
def KnowledgeBase.check_param (kb : KnowledgeBase) (index : Nat) (rule_param : Parameter)
    (rule : Rule) (rule_type_param : Parameter) (rule_type : Rule) :
    ValidationResult RuleParamMatch :=
  match rule_type_param.parameter, rule_type_param.specializer,
        rule_param.parameter, rule_param.specializer with
  | .Variable _, some (.Pattern rule_type_spec), .Variable _, some (.Pattern rule_spec) =>
    kb.check_pattern_param index rule_spec rule_type_spec
  | .Variable _, some (.Pattern (.Instance tag _)), .Variable parameter, none =>
    .ok (.False ("Parameter `" ++ parameter ++ "` expects a " ++ tag ++
      " type constraint.\n\n\t" ++ parameter ++ ": " ++ tag))
  | .Variable _, some rule_type_spec, .Variable _, none =>
    .ok (.False ("Invalid rule parameter " ++ toString index ++ ". Rule type expected " ++
      valueToPolar rule_type_spec))
  | .Variable _, some (.Pattern rule_type_spec), .Variable _, some rule_value
  | .Variable _, some (.Pattern rule_type_spec), rule_value, none =>
    (match rule_type_spec with
     | .Instance _ _ => do
       let rule_spec : InstanceLiteral ←
         (match rule_value with
          | .String _ => .ok ⟨"String", []⟩
          | .Number (.Integer _) => .ok ⟨"Integer", []⟩
          | .Number (.Float _) => .ok ⟨"Float", []⟩
          | .Boolean _ => .ok ⟨"Boolean", []⟩
          | .List _ => .ok ⟨"List", []⟩
          | .Dictionary rule_fields => .ok ⟨"Dictionary", rule_fields⟩
          | _ => .error (ValidationError.InvalidRule rule
              ("Value variant " ++ valueToPolar rule_value ++ " cannot be a specializer")))
       kb.check_pattern_param index (.Instance rule_spec.tag rule_spec.fields) rule_type_spec
     | .Dictionary rule_type_fields =>
       (match rule_value with
        | .Dictionary rule_fields =>
          if param_fields_match rule_type_fields rule_fields then .ok .True
          else .ok (.False ("Invalid parameter " ++ toString index ++
            ". Rule type expected Dictionary with fields " ++ fieldsToPolar rule_type_fields ++
            ", got dictionary with fields " ++ fieldsToPolar rule_fields ++ "."))
        | _ => .ok (.False ("Invalid parameter " ++ toString index ++
            ". Rule type expected Dictionary, got " ++ valueToPolar rule_value ++ "."))))
  | .Variable _, none, _, _ => .ok .True
  | .Variable _, some rule_type_value, .Variable _, some rule_value
  | .Variable _, some rule_type_value, rule_value, none
  | rule_type_value, none, rule_value, none =>
    kb.check_value_param index rule_value rule_type_value rule_type
  | _, _, _, _ =>
    .ok (.False ("Invalid parameter " ++ toString index ++ ". Rule parameter " ++
      paramToPolar rule_param ++ " does not match rule type parameter " ++
      paramToPolar rule_type_param))

/-- Check parameters pairwise (1-indexed in messages), collecting results
and aborting on the first structural error. -/
def KnowledgeBase.check_params_from (kb : KnowledgeBase) (rule rule_type : Rule) :
    Nat → List (Parameter × Parameter) → ValidationResult (List RuleParamMatch)
  | _, [] => .ok []
  | i, (rule_param, rule_type_param) :: rest => do
    let r ← kb.check_param i rule_param rule rule_type_param rule_type
    let rs ← kb.check_params_from rule rule_type (i + 1) rest
    .ok (r :: rs)

/-- The short-circuiting `all` over parameter results: the first `False`
result (and its message) decides the outcome. -/
def firstFailure : List RuleParamMatch → RuleParamMatch
  | [] => .True
  | .False msg :: _ => .False msg
  | .True :: rest => firstFailure rest

/-- `rule_params_match`: a rule matches a rule type when the arities agree
and every parameter check succeeds. -/
def KnowledgeBase.rule_params_match (kb : KnowledgeBase) (rule rule_type : Rule) :
    ValidationResult RuleParamMatch :=
  if rule.params.length != rule_type.params.length then
    .ok (.False ("Different number of parameters. Rule has " ++
      toString rule.params.length ++ " parameter(s) but rule type has " ++
      toString rule_type.params.length ++ "."))
  else do
    let results ← kb.check_params_from rule rule_type 1 (rule.params.zip rule_type.params)
    .ok (firstFailure results)

/-- Collect the match result of `rule` against each rule type, aborting on
the first structural error (`collect::<Result<Vec<_>>>` in the source). -/
def KnowledgeBase.collect_type_results (kb : KnowledgeBase) (rule : Rule) :
    List Rule → ValidationResult (List (RuleParamMatch × Rule))
  | [] => .ok []
  | rule_type :: rest => do
    let r ← kb.rule_params_match rule rule_type
    let rs ← kb.collect_type_results rule rest
    .ok ((r, rule_type) :: rs)

/-- The message-accumulating `any` over rule-type results: walk until the
first `True`, appending the failure text of every `False` seen on the way. -/
def any_match_with_msg : List (RuleParamMatch × Rule) → String → Bool × String
  | [], msg => (false, msg)
  | (.True, _) :: _, msg => (true, msg)
  | (.False m, rule_type) :: rest, msg =>
    any_match_with_msg rest
      (msg ++ "\n" ++ ruleToPolar rule_type ++ "\n\tFailed to match because: " ++ m ++ "\n")

/-- Phase A inner loop: every rule of a generic rule must match at least
one of the rule types registered under its name. -/
def KnowledgeBase.check_rules_of_name (kb : KnowledgeBase) (types : List Rule) :
    List Rule → ValidationResult Unit
  | [] => .ok ()
  | rule :: rest => do
    let results ← kb.collect_type_results rule types
    match any_match_with_msg results "Must match one of the following rule types:\n" with
    | (true, _) => kb.check_rules_of_name types rest
    | (false, msg) => .error (.InvalidRule rule msg)

/-- Phase A of `validate_rule_types`: iterate all generic rules; names with
no registered rule types are skipped. -/
def KnowledgeBase.check_all_rules (kb : KnowledgeBase) :
    List (String × GenericRule) → ValidationResult Unit
  | [] => .ok ()
  | (rule_name, generic_rule) :: rest =>
    match kb.rule_types.get rule_name with
    | some types => do
      kb.check_rules_of_name types generic_rule.rules
      kb.check_all_rules rest
    | none => kb.check_all_rules rest

/-- Phase B inner loop: scan the rules under a required rule type for a
match, breaking at the first one. -/
def KnowledgeBase.scan_for_match (kb : KnowledgeBase) (rule_type : Rule) :
    List Rule → ValidationResult Bool
  | [] => .ok false
  | rule :: rest => do
    let r ← kb.rule_params_match rule rule_type
    match r with
    | .True => .ok true
    | .False _ => kb.scan_for_match rule_type rest

/-- Phase B of `validate_rule_types`: every required rule type needs at
least one matching rule. -/
def KnowledgeBase.check_required (kb : KnowledgeBase) : List Rule → ValidationResult Unit
  | [] => .ok ()
  | rule_type :: rest =>
    match alookup kb.rules rule_type.name with
    | some gr => do
      let found_match ← kb.scan_for_match rule_type gr.rules
      if !found_match then .error (.MissingRequiredRule rule_type)
      else kb.check_required rest
    | none => .error (.MissingRequiredRule rule_type)

/-- `validate_rule_types`: Phase A (conformance of every rule against the
rule types of its name) then Phase B (required coverage), aborting at the
first error. -/
def KnowledgeBase.validate_rule_types (kb : KnowledgeBase) : ValidationResult Unit := do
  kb.check_all_rules kb.rules
  kb.check_required kb.rule_types.required_rule_types

/-- `validate_rules`: rule-type diagnostics first, then the undefined-rule-
call diagnostics. The undefined-call checker (validations.rs) is outside
this module and is passed in as a parameter. -/
def KnowledgeBase.validate_rules (check_undefined_rule_calls : KnowledgeBase → List Diagnostic)
    (kb : KnowledgeBase) : List Diagnostic :=
  let diagnostics : List Diagnostic :=
    match kb.validate_rule_types with
    | .error e => [.Error e]
    | .ok _ => []
  diagnostics ++ check_undefined_rule_calls kb

/-- `check_file`: the three-way filename/content overlap check. -/
def KnowledgeBase.check_file (kb : KnowledgeBase) (src filename : String) :
    Except RuntimeError Unit :=
  match alookup kb.loaded_content src, (alookup kb.loaded_files filename).isSome with
  | some other_file, true =>
    if other_file == filename then
      .error (.FileLoading ("File " ++ filename ++ " has already been loaded."))
    else
      .error (.FileLoading ("A file with the name " ++ filename ++
        ", but different contents has already been loaded."))
  | none, true =>
    .error (.FileLoading ("A file with the name " ++ filename ++
      ", but different contents has already been loaded."))
  | some other_file, false =>
    .error (.FileLoading ("A file with the same contents as " ++ filename ++
      " named " ++ other_file ++ " has already been loaded."))
  | none, false => .ok ()

/-- `add_source`: draw a fresh id, run the overlap check when a filename is
present, then record the source in all three maps. -/
def KnowledgeBase.add_source (kb : KnowledgeBase) (source : Source) :
    Except RuntimeError Nat × KnowledgeBase :=
  let (src_id, kb1) := kb.new_id
  match source.filename with
  | some filename =>
    match kb1.check_file source.src filename with
    | .error e => (.error e, kb1)
    | .ok _ =>
      let kb2 := { kb1 with
        loaded_content := ainsert kb1.loaded_content source.src filename
        loaded_files := ainsert kb1.loaded_files filename src_id }
      let kb3 := { kb2 with sources := kb2.sources.add_source source src_id }
      (.ok src_id, kb3)
  | none =>
    let kb2 := { kb1 with sources := kb1.sources.add_source source src_id }
    (.ok src_id, kb2)

/-- `clear_rules`: clear rules, rule types, sources, inline queries, loaded
file maps and resource blocks; constants, MROs and counters survive. -/
def KnowledgeBase.clear_rules (kb : KnowledgeBase) : KnowledgeBase :=
  { kb with
    rules := []
    rule_types := kb.rule_types.reset
    sources := ⟨[]⟩
    inline_queries := []
    loaded_content := []
    loaded_files := []
    resource_blocks := kb.resource_blocks.clear }

/-- An empty knowledge base (`KnowledgeBase::new`). -/
def emptyKB : KnowledgeBase :=
  { constants := []
    mro := []
    loaded_files := []
    loaded_content := []
    rules := []
    rule_types := ⟨[]⟩
    sources := ⟨[]⟩
    gensym_counter := ⟨0⟩
    id_counter := ⟨0⟩
    inline_queries := []
    resource_blocks := ⟨[], [], [], []⟩ }

/-- A rule body that is the empty conjunction (`op!(And)`), as produced for
rule heads by the test helpers of the source. -/
def emptyBody : Value := .Expression "And" []

/-- A one-parameter rule head `name(pname: Tag)` with an instance-pattern
specializer. -/
def ruleWithInstanceSpec (rname pname tag : Symbol) : Rule :=
  ⟨rname, [⟨.Variable pname, some (.Pattern (.Instance tag []))⟩], emptyBody, false⟩

/-- A one-parameter rule head `name(pname: v)` with a value specializer. -/
def ruleWithValueSpec (rname pname : Symbol) (v : Value) : Rule :=
  ⟨rname, [⟨.Variable pname, some v⟩], emptyBody, false⟩

/-- The knowledge base of the source's `test_rule_params_match` test:
Fruit/Citrus/Orange registered as external instances 1/2/3 with MROs
`[1]` / `[2,1]` / `[3,2,1]`, plus Foo (id 4, no MRO). -/
def fruitKB : KnowledgeBase :=
  { emptyKB with
    constants := [("Fruit", .ExternalInstance 1), ("Citrus", .ExternalInstance 2),
                  ("Orange", .ExternalInstance 3), ("Foo", .ExternalInstance 4)]
    mro := [("Fruit", [1]), ("Citrus", [2, 1]), ("Orange", [3, 2, 1])] }

-- Scratch checks mirroring the source's unit tests (to be pruned).
example : fruitKB.rule_params_match
    (ruleWithInstanceSpec "f" "x" "Fruit") (ruleWithInstanceSpec "f" "x" "Fruit") =
    .ok .True := by decide

example : ∃ msg, fruitKB.rule_params_match
    (ruleWithInstanceSpec "f" "x" "Fruit") (ruleWithInstanceSpec "f" "x" "Citrus") =
    .ok (.False msg) := ⟨_, rfl⟩

example : fruitKB.rule_params_match
    (ruleWithInstanceSpec "f" "x" "Citrus") (ruleWithInstanceSpec "f" "x" "Fruit") =
    .ok .True := by decide

example : fruitKB.rule_params_match
    (ruleWithValueSpec "f" "x" (.List [.Number (.Integer 1), .Number (.Integer 2), .Number (.Integer 3)]))
    (ruleWithValueSpec "f" "x" (.List [.Number (.Integer 1), .Number (.Integer 2)])) =
    .ok .True := by decide

example : ∃ msg, fruitKB.rule_params_match
    (ruleWithValueSpec "f" "x" (.List [.Number (.Integer 1), .Number (.Integer 2)]))
    (ruleWithValueSpec "f" "x" (.List [.Number (.Integer 1), .Number (.Integer 2), .Number (.Integer 3)])) =
    .ok (.False msg) := ⟨_, rfl⟩

example : fruitKB.rule_params_match
    (ruleWithValueSpec "f" "x" (.List [.Number (.Integer 1), .Number (.Integer 2)]))
    (ruleWithValueSpec "f" "x" (.List [.Number (.Integer 1), .Number (.Integer 2), .RestVariable "_rest"])) =
    .error (.InvalidRuleType
      (ruleWithValueSpec "f" "x" (.List [.Number (.Integer 1), .Number (.Integer 2), .RestVariable "_rest"]))
      "Rule types cannot contain *rest variables.") := by decide

example : fruitKB.rule_params_match
    (ruleWithValueSpec "f" "x" (.Number (.Integer 6)))
    (ruleWithInstanceSpec "f" "x" "Integer") = .ok .True := by decide

example : ∃ msg, fruitKB.rule_params_match
    (ruleWithValueSpec "f" "x" (.Number (.Integer 6)))
    (ruleWithInstanceSpec "f" "x" "Foo") = .ok (.False msg) := ⟨_, rfl⟩

example : fruitKB.rule_params_match
    (ruleWithValueSpec "f" "x" (.Dictionary [("id", .Number (.Integer 1))]))
    (ruleWithValueSpec "f" "x" (.Pattern (.Instance "Dictionary" [("id", .Number (.Integer 1))]))) =
    .ok .True := by decide

example : ∃ msg, fruitKB.rule_params_match
    (⟨"f", [⟨.Variable "x", none⟩], emptyBody, false⟩)
    (ruleWithInstanceSpec "f" "x" "Foo") = .ok (.False msg) := ⟨_, rfl⟩

example : fruitKB.rule_params_match
    (ruleWithInstanceSpec "f" "x" "Foo")
    (⟨"f", [⟨.Variable "x", none⟩], emptyBody, false⟩) = .ok .True := by decide

/-- A KB with one file `f` of contents `f();` already loaded. -/
def loadedKB : KnowledgeBase :=
  { emptyKB with
    loaded_content := [("f();", "f")]
    loaded_files := [("f", 0)]
    id_counter := ⟨1⟩ }

/-- C8: after `clear_rules`, the rules map, rule types, sources, inline
queries, loaded files, loaded content and resource blocks are all empty,
while constants, mro and both counters are unchanged. -/
theorem clear_rules_frame (kb : KnowledgeBase) :
    (kb.clear_rules).rules = [] ∧
    (kb.clear_rules).rule_types.types = [] ∧
    (kb.clear_rules).sources.sources = [] ∧
    (kb.clear_rules).inline_queries = [] ∧
    (kb.clear_rules).loaded_files = [] ∧
    (kb.clear_rules).loaded_content = [] ∧
    (kb.clear_rules).resource_blocks.actors = [] ∧
    (kb.clear_rules).resource_blocks.resources = [] ∧
    (kb.clear_rules).resource_blocks.declarations = [] ∧
    (kb.clear_rules).resource_blocks.shorthand_rules = [] ∧
    (kb.clear_rules).constants = kb.constants ∧
    (kb.clear_rules).mro = kb.mro ∧
    (kb.clear_rules).gensym_counter = kb.gensym_counter ∧
    (kb.clear_rules).id_counter = kb.id_counter :=
  ⟨rfl, rfl, rfl, rfl, rfl, rfl, rfl, rfl, rfl, rfl, rfl, rfl, rfl, rfl⟩

/-- C9: a single `validate_rules` call returns at most one rule-type
diagnostic — the rule-type pass aborts at its first failure — and the
undefined-rule-call diagnostics are appended after that prefix. -/
theorem validate_rules_single_rule_type_diag
    (check_undefined_rule_calls : KnowledgeBase → List Diagnostic) (kb : KnowledgeBase) :
    ∃ pre : List Diagnostic,
      KnowledgeBase.validate_rules check_undefined_rule_calls kb =
        pre ++ check_undefined_rule_calls kb ∧
      pre.length ≤ 1 ∧
      ∀ d ∈ pre, ∃ e, d = .Error e ∧ kb.validate_rule_types = .error e := by
  cases h : kb.validate_rule_types with
  | error e =>
    refine ⟨[.Error e], ?_, by simp, ?_⟩
    · simp [KnowledgeBase.validate_rules, h]
    · intro d hd
      simp only [List.mem_singleton] at hd
      exact ⟨e, hd, rfl⟩
  | ok u =>
    refine ⟨[], ?_, by simp, by simp⟩
    simp [KnowledgeBase.validate_rules, h]

/-- C10: when `add_source` fails the overlap check, the loaded-files,
loaded-content and sources maps are unchanged, but the id counter has
already advanced — failed calls consume source ids. -/
theorem add_source_error_consumes_id (kb : KnowledgeBase) (source : Source)
    (e : RuntimeError) (kb2 : KnowledgeBase)
    (h : kb.add_source source = (.error e, kb2)) :
    kb2.loaded_files = kb.loaded_files ∧
    kb2.loaded_content = kb.loaded_content ∧
    kb2.sources = kb.sources ∧
    kb2.rules = kb.rules ∧
    kb2.id_counter = (kb.id_counter.next).2 := by
  unfold KnowledgeBase.add_source KnowledgeBase.new_id at h
  rcases source with ⟨src, filename⟩
  cases filename with
  | none => simp at h
  | some fn =>
    simp only at h
    cases hc : KnowledgeBase.check_file { kb with id_counter := (kb.id_counter.next).2 } src fn with
    | ok u => rw [hc] at h; simp at h
    | error e2 =>
      rw [hc] at h
      rw [Prod.mk.injEq] at h
      obtain ⟨-, hkb⟩ := h
      subst hkb
      exact ⟨rfl, rfl, rfl, rfl, rfl⟩

theorem alookup_mem {α : Type} (l : List (String × α)) :
    ∀ {k : String} {v : α}, alookup l k = some v → (k, v) ∈ l := by
  induction l with
  | nil => intro k v h; simp [alookup] at h
  | cons p rest ih =>
    intro k v h
    obtain ⟨k0, v0⟩ := p
    rw [alookup] at h
    split at h
    next hk =>
      obtain rfl := Option.some.inj h
      have hk2 : k0 = k := by simpa using hk
      subst hk2
      exact List.mem_cons_self _ _
    next => exact List.mem_cons_of_mem _ (ih h)

theorem check_file_same_name_same_content (kb : KnowledgeBase) (s fn : String)
    (h1 : alookup kb.loaded_content s = some fn)
    (h2 : (alookup kb.loaded_files fn).isSome = true) :
    kb.check_file s fn =
      .error (.FileLoading ("File " ++ fn ++ " has already been loaded.")) := by
  unfold KnowledgeBase.check_file
  rw [h1, h2]
  simp

theorem check_file_same_name_diff_content (kb : KnowledgeBase) (s fn : String)
    (h1 : alookup kb.loaded_content s ≠ some fn)
    (h2 : (alookup kb.loaded_files fn).isSome = true) :
    kb.check_file s fn =
      .error (.FileLoading ("A file with the name " ++ fn ++
        ", but different contents has already been loaded.")) := by
  unfold KnowledgeBase.check_file
  cases hc : alookup kb.loaded_content s with
  | none => rw [h2]
  | some other =>
    rw [h2]
    have : other ≠ fn := fun hh => h1 (by rw [hc, hh])
    simp [this]

theorem check_file_same_content_diff_name (kb : KnowledgeBase) (s fn f : String)
    (h1 : alookup kb.loaded_content s = some f)
    (h2 : (alookup kb.loaded_files fn).isSome = false) :
    kb.check_file s fn =
      .error (.FileLoading ("A file with the same contents as " ++ fn ++
        " named " ++ f ++ " has already been loaded.")) := by
  unfold KnowledgeBase.check_file
  rw [h1, h2]

theorem check_file_fresh (kb : KnowledgeBase) (s fn : String)
    (h1 : alookup kb.loaded_content s = none)
    (h2 : (alookup kb.loaded_files fn).isSome = false) :
    kb.check_file s fn = .ok () := by
  unfold KnowledgeBase.check_file
  rw [h1, h2]

theorem check_file_counter_irrelevant (kb : KnowledgeBase) (c : Counter) (s fn : String) :
    ({ kb with id_counter := c } : KnowledgeBase).check_file s fn = kb.check_file s fn := rfl

theorem add_source_some_error (kb : KnowledgeBase) (s fn : String) (e : RuntimeError)
    (h : kb.check_file s fn = .error e) :
    kb.add_source ⟨s, some fn⟩ = (.error e, (kb.new_id).2) := by
  simp only [KnowledgeBase.add_source, KnowledgeBase.new_id]
  rw [check_file_counter_irrelevant, h]

theorem add_source_some_ok (kb : KnowledgeBase) (s fn : String)
    (h : kb.check_file s fn = .ok ()) :
    kb.add_source ⟨s, some fn⟩ =
      (.ok (kb.new_id).1,
       { (kb.new_id).2 with
          loaded_content := ainsert kb.loaded_content s fn
          loaded_files := ainsert kb.loaded_files fn (kb.new_id).1
          sources := kb.sources.add_source ⟨s, some fn⟩ (kb.new_id).1 }) := by
  simp only [KnowledgeBase.add_source, KnowledgeBase.new_id]
  rw [check_file_counter_irrelevant, h]

/-- C7: on a source with a filename, `add_source` errors iff one of the
three overlap conditions holds against the loaded maps, each with its
verbatim message; otherwise it admits the source into both maps and the
source store and returns the fresh id. Sources without a filename bypass
the check. `hinv` is KB invariant 1: every loaded-content entry points at
a loaded filename. -/
theorem add_source_overlap_spec (kb : KnowledgeBase) (s fn : String)
    (hinv : ∀ p ∈ kb.loaded_content, (alookup kb.loaded_files p.2).isSome = true) :
    (alookup kb.loaded_content s = some fn →
      (alookup kb.loaded_files fn).isSome = true →
      (kb.add_source ⟨s, some fn⟩).1 =
        .error (.FileLoading ("File " ++ fn ++ " has already been loaded."))) ∧
    ((alookup kb.loaded_files fn).isSome = true →
      alookup kb.loaded_content s ≠ some fn →
      (kb.add_source ⟨s, some fn⟩).1 =
        .error (.FileLoading ("A file with the name " ++ fn ++
          ", but different contents has already been loaded."))) ∧
    (∀ f, alookup kb.loaded_content s = some f →
      (alookup kb.loaded_files fn).isSome = false →
      f ≠ fn ∧
      (kb.add_source ⟨s, some fn⟩).1 =
        .error (.FileLoading ("A file with the same contents as " ++ fn ++
          " named " ++ f ++ " has already been loaded."))) ∧
    (alookup kb.loaded_content s = none →
      (alookup kb.loaded_files fn).isSome = false →
      kb.add_source ⟨s, some fn⟩ =
        (.ok (kb.new_id).1,
         { (kb.new_id).2 with
            loaded_content := ainsert kb.loaded_content s fn
            loaded_files := ainsert kb.loaded_files fn (kb.new_id).1
            sources := kb.sources.add_source ⟨s, some fn⟩ (kb.new_id).1 })) ∧
    ((∃ e, (kb.add_source ⟨s, some fn⟩).1 = .error e) ↔
      ((alookup kb.loaded_files fn).isSome = true ∨ alookup kb.loaded_content s ≠ none)) ∧
    (∀ s2, kb.add_source ⟨s2, none⟩ =
      (.ok (kb.new_id).1,
       { (kb.new_id).2 with sources := kb.sources.add_source ⟨s2, none⟩ (kb.new_id).1 })) := by
  refine ⟨?_, ?_, ?_, ?_, ?_, ?_⟩
  · intro h1 h2
    rw [add_source_some_error kb s fn _ (check_file_same_name_same_content kb s fn h1 h2)]
  · intro h2 h1
    rw [add_source_some_error kb s fn _ (check_file_same_name_diff_content kb s fn h1 h2)]
  · intro f h1 h2
    have hne : f ≠ fn := by
      intro hh
      subst hh
      have := hinv (s, f) (alookup_mem kb.loaded_content h1)
      rw [this] at h2
      exact Bool.noConfusion h2
    exact ⟨hne,
      by rw [add_source_some_error kb s fn _ (check_file_same_content_diff_name kb s fn f h1 h2)]⟩
  · intro h1 h2
    exact add_source_some_ok kb s fn (check_file_fresh kb s fn h1 h2)
  · constructor
    · rintro ⟨e, he⟩
      by_contra hcon
      push_neg at hcon
      obtain ⟨hf, hc⟩ := hcon
      have hf2 : (alookup kb.loaded_files fn).isSome = false := Bool.eq_false_iff.mpr hf
      rw [add_source_some_ok kb s fn (check_file_fresh kb s fn hc hf2)] at he
      exact Except.noConfusion he
    · intro h
      rcases h with hf | hc
      · by_cases hcf : alookup kb.loaded_content s = some fn
        · exact ⟨_, by rw [add_source_some_error kb s fn _
            (check_file_same_name_same_content kb s fn hcf hf)]⟩
        · exact ⟨_, by rw [add_source_some_error kb s fn _
            (check_file_same_name_diff_content kb s fn hcf hf)]⟩
      · obtain ⟨f, hcs⟩ := Option.ne_none_iff_exists.mp hc
        cases hf : (alookup kb.loaded_files fn).isSome with
        | true =>
          by_cases hcf : alookup kb.loaded_content s = some fn
          · exact ⟨_, by rw [add_source_some_error kb s fn _
              (check_file_same_name_same_content kb s fn hcf hf)]⟩
          · exact ⟨_, by rw [add_source_some_error kb s fn _
              (check_file_same_name_diff_content kb s fn hcf hf)]⟩
        | false =>
          exact ⟨_, by rw [add_source_some_error kb s fn _
            (check_file_same_content_diff_name kb s fn f hcs.symm hf)]⟩
  · intro s2
    simp [KnowledgeBase.add_source, KnowledgeBase.new_id]

/-- C7 witness: the three error scenarios of the source's
`test_add_source_file_validation` plus a fresh admission, all on concrete
states, via `add_source_overlap_spec`. -/
theorem add_source_overlap_spec_witness :
    (loadedKB.add_source ⟨"f();", some "f"⟩).1 =
      .error (.FileLoading "File f has already been loaded.") ∧
    (loadedKB.add_source ⟨"g();", some "f"⟩).1 =
      .error (.FileLoading "A file with the name f, but different contents has already been loaded.") ∧
    (loadedKB.add_source ⟨"f();", some "g"⟩).1 =
      .error (.FileLoading "A file with the same contents as g named f has already been loaded.") ∧
    (emptyKB.add_source ⟨"f();", some "f"⟩).1 = .ok 0 :=
  ⟨(add_source_overlap_spec loadedKB "f();" "f" (by decide)).1 (by decide) (by decide),
   (add_source_overlap_spec loadedKB "g();" "f" (by decide)).2.1 (by decide) (by decide),
   ((add_source_overlap_spec loadedKB "f();" "g" (by decide)).2.2.1 "f" (by decide) (by decide)).2,
   by
    rw [(add_source_overlap_spec emptyKB "f();" "f" (by decide)).2.2.2.1 (by decide) (by decide)]
    rfl⟩

/-- C10 witness: loading the already-loaded file `f` into `loadedKB` fails
and leaves the maps unchanged while consuming id 1. -/
theorem add_source_error_consumes_id_witness :
    ({ loadedKB with id_counter := ⟨2⟩ } : KnowledgeBase).loaded_files = loadedKB.loaded_files ∧
    ({ loadedKB with id_counter := ⟨2⟩ } : KnowledgeBase).loaded_content = loadedKB.loaded_content ∧
    ({ loadedKB with id_counter := ⟨2⟩ } : KnowledgeBase).sources = loadedKB.sources ∧
    ({ loadedKB with id_counter := ⟨2⟩ } : KnowledgeBase).rules = loadedKB.rules ∧
    ({ loadedKB with id_counter := ⟨2⟩ } : KnowledgeBase).id_counter = (loadedKB.id_counter.next).2 :=
  add_source_error_consumes_id loadedKB ⟨"f();", some "f"⟩
    (.FileLoading "File f has already been loaded.")
    { loadedKB with id_counter := ⟨2⟩ } (by decide)

theorem param_fields_match_iff_lemma (tf rf : Fields) :
    param_fields_match tf rf = true ↔ ∀ kv ∈ tf, alookup rf kv.1 = some kv.2 := by
  unfold param_fields_match
  rw [List.all_eq_true]
  constructor
  · intro h kv hkv
    have h2 := h kv hkv
    cases hl : alookup rf kv.1 with
    | none => simp [hl] at h2
    | some rv =>
      simp only [hl] at h2
      exact congrArg some (valueBeq_iff_eq.mp h2)
  · intro h kv hkv
    have h2 := h kv hkv
    simp only [h2]
    exact valueBeq_refl kv.2

/-- C6: `param_fields_match(Dᵗ, Dʳ)` is true iff every key of the rule-type
fields occurs in the rule fields with a structurally equal value: the rule
fields must be a superset of the rule-type fields — extra rule fields are
fine, a missing rule-type key fails — and field values are compared by
plain equality, with no recursive pattern subsumption. -/
theorem param_fields_match_superset_iff (tf rf : Fields) :
    param_fields_match tf rf = true ↔ ∀ kv ∈ tf, alookup rf kv.1 = some kv.2 :=
  param_fields_match_iff_lemma tf rf

theorem mem_iff_anyBeq (l : List Value) (t : Value) :
    (l.any fun u => valueBeq u t) = true ↔ t ∈ l := by
  rw [List.any_eq_true]
  constructor
  · rintro ⟨u, hu, hb⟩
    rw [← valueBeq_iff_eq.mp hb]
    exact hu
  · intro h
    exact ⟨t, h, valueBeq_refl t⟩

/-- C5: when both the rule parameter and the rule-type parameter are list
values, the check aborts with `InvalidRuleType` ("Rule types cannot contain
*rest variables.") whenever the rule-type list contains a rest variable;
otherwise it returns True iff every element of the rule-type list occurs in
the rule's list (the rule's list is a superset, elements compared by
structural equality), and returns False with a message otherwise. -/
theorem check_value_param_list_spec (kb : KnowledgeBase) (index : Nat)
    (ltype lrule : List Value) (rule_type : Rule) :
    (has_rest_var ltype = true →
      kb.check_value_param index (.List lrule) (.List ltype) rule_type =
        .error (.InvalidRuleType rule_type "Rule types cannot contain *rest variables.")) ∧
    (has_rest_var ltype = false →
      (kb.check_value_param index (.List lrule) (.List ltype) rule_type = .ok .True ↔
        ∀ t ∈ ltype, t ∈ lrule) ∧
      (¬(∀ t ∈ ltype, t ∈ lrule) →
        ∃ msg, kb.check_value_param index (.List lrule) (.List ltype) rule_type =
          .ok (.False msg))) := by
  have hcond : (ltype.all fun t => lrule.any fun u => valueBeq u t) = true ↔
      ∀ t ∈ ltype, t ∈ lrule := by
    rw [List.all_eq_true]
    constructor
    · intro hh t ht
      exact (mem_iff_anyBeq lrule t).mp (hh t ht)
    · intro hh t ht
      exact (mem_iff_anyBeq lrule t).mpr (hh t ht)
  refine ⟨?_, ?_⟩
  · intro h
    simp [KnowledgeBase.check_value_param, h]
  · intro h
    cases hcond2 : (ltype.all fun t => lrule.any fun u => valueBeq u t) with
    | true =>
      have hmem : ∀ t ∈ ltype, t ∈ lrule := hcond.mp hcond2
      refine ⟨⟨fun _ => hmem, fun _ => ?_⟩, fun hcon => absurd hmem hcon⟩
      simp [KnowledgeBase.check_value_param, h, hcond2]
    | false =>
      have hmem : ¬ ∀ t ∈ ltype, t ∈ lrule := fun hh => by
        rw [hcond.mpr hh] at hcond2
        exact Bool.noConfusion hcond2
      refine ⟨⟨fun he => ?_, fun hh => absurd hh hmem⟩, fun _ => ?_⟩
      · exfalso
        simp [KnowledgeBase.check_value_param, h, hcond2] at he
      · refine ⟨"Invalid parameter " ++ toString index ++ ". Rule type expected list " ++
          valueToPolar (.List ltype) ++ ", got list " ++ valueToPolar (.List lrule) ++ ".", ?_⟩
        simp [KnowledgeBase.check_value_param, h, hcond2]

/-- C5 witness: `[1,2]` as a rule type accepts the rule list `[1,2,3]`
(superset), rejects `[1]`, and a rule-type list ending in `*rest` aborts
with `InvalidRuleType`, all via `check_value_param_list_spec`. -/
theorem check_value_param_list_spec_witness :
    emptyKB.check_value_param 1
      (.List [.Number (.Integer 1), .Number (.Integer 2), .Number (.Integer 3)])
      (.List [.Number (.Integer 1), .Number (.Integer 2)])
      (ruleWithInstanceSpec "f" "x" "Foo") = .ok .True ∧
    (¬ emptyKB.check_value_param 1
      (.List [.Number (.Integer 1)])
      (.List [.Number (.Integer 1), .Number (.Integer 2)])
      (ruleWithInstanceSpec "f" "x" "Foo") = .ok .True) ∧
    emptyKB.check_value_param 1
      (.List [.Number (.Integer 1)])
      (.List [.Number (.Integer 1), .RestVariable "rest"])
      (ruleWithInstanceSpec "f" "x" "Foo") =
      .error (.InvalidRuleType (ruleWithInstanceSpec "f" "x" "Foo")
        "Rule types cannot contain *rest variables.") :=
  ⟨((check_value_param_list_spec emptyKB 1
      [.Number (.Integer 1), .Number (.Integer 2)]
      [.Number (.Integer 1), .Number (.Integer 2), .Number (.Integer 3)]
      (ruleWithInstanceSpec "f" "x" "Foo")).2 (by decide)).1.mpr (by decide),
   fun he =>
     (by decide :
       ¬ ∀ t ∈ [Value.Number (.Integer 1), Value.Number (.Integer 2)],
         t ∈ [Value.Number (.Integer 1)])
       (((check_value_param_list_spec emptyKB 1
          [.Number (.Integer 1), .Number (.Integer 2)]
          [.Number (.Integer 1)]
          (ruleWithInstanceSpec "f" "x" "Foo")).2 (by decide)).1.mp he),
   (check_value_param_list_spec emptyKB 1
      [.Number (.Integer 1), .RestVariable "rest"]
      [.Number (.Integer 1)]
      (ruleWithInstanceSpec "f" "x" "Foo")).1 (by decide)⟩

/-- A one-parameter rule head `rname(pname: Tag{fields})`. -/
def specRule (rname pname tag : Symbol) (f : Fields) : Rule :=
  ⟨rname, [⟨.Variable pname, some (.Pattern (.Instance tag f))⟩], emptyBody, false⟩

theorem rule_params_match_single (kb : KnowledgeBase) (rnameA rnameB : Symbol)
    (pA pB : Parameter) (bodyA bodyB : Value) (reqA reqB : Bool) :
    kb.rule_params_match ⟨rnameA, [pA], bodyA, reqA⟩ ⟨rnameB, [pB], bodyB, reqB⟩ =
      match kb.check_param 1 pA ⟨rnameA, [pA], bodyA, reqA⟩ pB ⟨rnameB, [pB], bodyB, reqB⟩ with
      | .ok r => .ok (firstFailure [r])
      | .error e => .error e := by
  unfold KnowledgeBase.rule_params_match
  have hif : (([pA] : List Parameter).length != ([pB] : List Parameter).length) = false := rfl
  rw [hif]
  have hz : ([pA].zip [pB]) = [(pA, pB)] := rfl
  simp only [Bool.false_eq_true, if_false, hz, KnowledgeBase.check_params_from]
  cases hc : kb.check_param 1 pA ⟨rnameA, [pA], bodyA, reqA⟩ pB ⟨rnameB, [pB], bodyB, reqB⟩ with
  | error e => rfl
  | ok r => rfl

theorem except_bind_eq_error {ε α β : Type} {x : Except ε α} {f : α → Except ε β} {e : ε}
    (h : (do let a ← x; f a) = .error e) :
    x = .error e ∨ ∃ a, x = .ok a ∧ f a = .error e := by
  cases x with
  | error e2 =>
    have h2 : (Except.error e2 : Except ε β) = Except.error e := h
    obtain rfl := Except.error.inj h2
    exact Or.inl rfl
  | ok a => exact Or.inr ⟨a, rfl, h⟩

theorem except_bind_eq_ok {ε α β : Type} {x : Except ε α} {f : α → Except ε β} {b : β}
    (h : (do let a ← x; f a) = .ok b) : ∃ a, x = .ok a ∧ f a = .ok b := by
  cases x with
  | error e2 => exact absurd h (fun hh => Except.noConfusion hh)
  | ok a => exact ⟨a, rfl, h⟩

theorem nat_contains_iff (l : List Nat) (b : Nat) : l.contains b = true ↔ b ∈ l := by
  induction l with
  | nil => simp
  | cons x xs ih => simp [List.contains_cons]

/-- Characterization of the subclass check when the rule-type tag is
registered as an external instance and the rule tag has an MRO. -/
theorem subclass_check_char (kb : KnowledgeBase) (A B : Symbol) (fA fB : Fields)
    (b : Nat) (l : List Nat) (idx : Nat)
    (hB : alookup kb.constants B = some (.ExternalInstance b))
    (hA : alookup kb.mro A = some l) :
    kb.check_rule_instance_is_subclass_of_rule_type_instance ⟨A, fA⟩ ⟨B, fB⟩ idx =
      .ok (if b ∈ l then
             (if param_fields_match fB fA then .True
              else .False (fieldsMismatchMsg ⟨A, fA⟩ idx ⟨B, fB⟩))
           else .False ("Rule specializer " ++ A ++ " on parameter " ++ toString idx ++
             " must match rule type specializer " ++ B)) := by
  have hg : kb.get_registered_class (.Variable B) = .ok (.ExternalInstance b) := by
    simp [KnowledgeBase.get_registered_class, Value.as_symbol, hB]
  unfold KnowledgeBase.check_rule_instance_is_subclass_of_rule_type_instance
  rw [hg]
  show (match alookup kb.mro A with
        | some rule_mro => _
        | none => _) = _
  rw [hA]
  by_cases hm : b ∈ l
  · have hc : l.contains b = true := (nat_contains_iff l b).mpr hm
    cases hpf : param_fields_match fB fA with
    | true => simp [hc, hm, hpf]
    | false => simp [hc, hm, hpf]
  · have hc : l.contains b = false := by
      cases hcc : l.contains b with
      | false => rfl
      | true => exact absurd ((nat_contains_iff l b).mp hcc) hm
    simp [hc, hm]

/-- The subclass check never raises an error when the rule-type tag is a
registered constant (of any value). -/
theorem subclass_check_no_error (kb : KnowledgeBase) (ri rti : InstanceLiteral) (idx : Nat)
    (h : (alookup kb.constants rti.tag).isSome = true) :
    ∃ r, kb.check_rule_instance_is_subclass_of_rule_type_instance ri rti idx = .ok r := by
  cases hres : kb.check_rule_instance_is_subclass_of_rule_type_instance ri rti idx with
  | ok r => exact ⟨r, rfl⟩
  | error e =>
    exfalso
    obtain ⟨t, ht⟩ := Option.isSome_iff_exists.mp h
    have hg : kb.get_registered_class (.Variable rti.tag) = .ok t := by
      simp [KnowledgeBase.get_registered_class, Value.as_symbol, ht]
    unfold KnowledgeBase.check_rule_instance_is_subclass_of_rule_type_instance at hres
    rcases except_bind_eq_error hres with h1 | ⟨term, h1, h2⟩
    · rw [hg] at h1
      exact Except.noConfusion h1
    · rw [hg] at h1
      obtain rfl := Except.ok.inj h1
      cases t with
      | ExternalInstance instance_id =>
        cases h3 : alookup kb.mro ri.tag with
        | none => rw [h3] at h2; exact Except.noConfusion h2
        | some rule_mro =>
          rw [h3] at h2
          cases hcc : rule_mro.contains instance_id with
          | true =>
            have hmem : instance_id ∈ rule_mro := (nat_contains_iff rule_mro instance_id).mp hcc
            cases hpp : param_fields_match rti.fields ri.fields with
            | true => simp [hcc, hmem, hpp] at h2
            | false => simp [hcc, hmem, hpp] at h2
          | false =>
            have hnm : instance_id ∉ rule_mro := fun hmm => by
              rw [(nat_contains_iff rule_mro instance_id).mpr hmm] at hcc
              exact Bool.noConfusion hcc
            simp [hcc, hnm] at h2
      | Variable s => exact Except.noConfusion h2
      | RestVariable s => exact Except.noConfusion h2
      | String s => exact Except.noConfusion h2
      | Number n => exact Except.noConfusion h2
      | Boolean bo => exact Except.noConfusion h2
      | List ll => exact Except.noConfusion h2
      | Dictionary d => exact Except.noConfusion h2
      | Pattern p => exact Except.noConfusion h2
      | Expression o a => exact Except.noConfusion h2
      | Call n a => exact Except.noConfusion h2

/-- C3: with distinct non-union instance tags A (rule side) and B
(rule-type side), where B is registered as an external instance with id b
and A has an MRO list, the match succeeds iff the MRO of A contains b and
the rule-type specializer fields are a matched subset of the rule
specializer fields; when the MRO does not contain b, the rule does not
match (a `False` result, not an error). -/
theorem rule_params_match_mro_spec (kb : KnowledgeBase) (rname pname A B : Symbol)
    (fA fB : Fields) (b : Nat) (l : List Nat)
    (hAB : A ≠ B)
    (_hAact : A ≠ ACTOR_UNION_NAME) (_hAres : A ≠ RESOURCE_UNION_NAME)
    (hBact : B ≠ ACTOR_UNION_NAME) (hBres : B ≠ RESOURCE_UNION_NAME)
    (hB : alookup kb.constants B = some (.ExternalInstance b))
    (hA : alookup kb.mro A = some l) :
    (kb.rule_params_match (specRule rname pname A fA) (specRule rname pname B fB) = .ok .True ↔
      (b ∈ l ∧ param_fields_match fB fA = true)) ∧
    (b ∉ l → ∃ msg,
      kb.rule_params_match (specRule rname pname A fA) (specRule rname pname B fB) =
        .ok (.False msg)) := by
  have hBA : (B == A) = false := beq_eq_false_iff_ne.mpr (Ne.symm hAB)
  have hBu1 : (B == ACTOR_UNION_NAME) = false := beq_eq_false_iff_ne.mpr hBact
  have hBu2 : (B == RESOURCE_UNION_NAME) = false := beq_eq_false_iff_ne.mpr hBres
  have hpat : kb.check_pattern_param 1 (.Instance A fA) (.Instance B fB) =
      kb.check_rule_instance_is_subclass_of_rule_type_instance ⟨A, fA⟩ ⟨B, fB⟩ 1 := by
    unfold KnowledgeBase.check_pattern_param
    simp [hBA, KnowledgeBase.is_union, Value.is_actor_union, Value.is_resource_union, hBu1, hBu2]
  have hcp : kb.check_param 1
      (⟨.Variable pname, some (.Pattern (.Instance A fA))⟩ : Parameter)
      (⟨rname, [⟨.Variable pname, some (.Pattern (.Instance A fA))⟩], emptyBody, false⟩ : Rule)
      (⟨.Variable pname, some (.Pattern (.Instance B fB))⟩ : Parameter)
      (⟨rname, [⟨.Variable pname, some (.Pattern (.Instance B fB))⟩], emptyBody, false⟩ : Rule) =
      kb.check_pattern_param 1 (.Instance A fA) (.Instance B fB) := rfl
  have hred : kb.rule_params_match (specRule rname pname A fA) (specRule rname pname B fB) =
      match kb.check_rule_instance_is_subclass_of_rule_type_instance ⟨A, fA⟩ ⟨B, fB⟩ 1 with
      | .ok r => .ok (firstFailure [r])
      | .error e => .error e := by
    rw [specRule, specRule, rule_params_match_single, hcp, hpat]
  rw [hred, subclass_check_char kb A B fA fB b l 1 hB hA]
  by_cases hm : b ∈ l
  · rw [if_pos hm]
    by_cases hpf : param_fields_match fB fA = true
    · rw [if_pos hpf]
      exact ⟨⟨fun _ => ⟨hm, hpf⟩, fun _ => rfl⟩, fun hno => absurd hm hno⟩
    · rw [if_neg hpf]
      refine ⟨⟨fun he => ?_, fun hc => absurd hc.2 hpf⟩, fun hno => absurd hm hno⟩
      simp [firstFailure] at he
  · rw [if_neg hm]
    refine ⟨⟨fun he => ?_, fun hc => absurd hc.1 hm⟩, fun _ => ⟨_, rfl⟩⟩
    simp [firstFailure] at he

/-- C3 witness: in the fruit KB (Citrus MRO `[2,1]`, Fruit id 1, Citrus id
2), `f(x: Citrus)` matches type `f(x: Fruit)` and `f(x: Fruit)` does not
match type `f(x: Citrus)`, via `rule_params_match_mro_spec`. -/
theorem rule_params_match_mro_spec_witness :
    fruitKB.rule_params_match (specRule "f" "x" "Citrus" []) (specRule "f" "x" "Fruit" []) =
      .ok .True ∧
    ∃ msg, fruitKB.rule_params_match (specRule "f" "x" "Fruit" []) (specRule "f" "x" "Citrus" []) =
      .ok (.False msg) :=
  ⟨(rule_params_match_mro_spec fruitKB "f" "x" "Citrus" "Fruit" [] [] 1 [2, 1]
      (by decide) (by decide) (by decide) (by decide) (by decide)
      (by decide) (by decide)).1.mpr ⟨by decide, by decide⟩,
   (rule_params_match_mro_spec fruitKB "f" "x" "Fruit" "Citrus" [] [] 2 [1]
      (by decide) (by decide) (by decide) (by decide) (by decide)
      (by decide) (by decide)).2 (by decide)⟩

/-- Whether an association list has pairwise-distinct keys; always true of
real `BTreeMap` dictionaries (the spec's `Dictionary` is a mapping). -/
def fields_distinct : Fields → Bool
  | [] => true
  | (k, _) :: rest => !(rest.any (fun kv => kv.1 == k)) && fields_distinct rest

/-- Values safe for self-matching: a list value must not contain a rest
variable (the rule-type side aborts with `InvalidRuleType` on one), and a
dictionary must be a well-formed map. -/
def reflexive_safe_value : Value → Bool
  | .List l => !(has_rest_var l)
  | .Dictionary f => fields_distinct f
  | _ => true

/-- Patterns safe for self-matching: well-formed field maps. -/
def reflexive_safe_pattern : Pattern → Bool
  | .Instance _ f => fields_distinct f
  | .Dictionary f => fields_distinct f

/-- Parameters safe for self-matching: a variable with any pattern
specializer or a safe value specializer, or a bare safe literal. A literal
parameter that also carries a specializer falls into the catch-all arm of
`check_param` and fails even against itself. -/
def reflexive_safe_param (p : Parameter) : Bool :=
  match p.parameter, p.specializer with
  | .Variable _, none => true
  | .Variable _, some (.Pattern pat) => reflexive_safe_pattern pat
  | .Variable _, some v => reflexive_safe_value v
  | pv, none => reflexive_safe_value pv
  | _, some _ => false

theorem alookup_self_of_distinct :
    ∀ (f : Fields), fields_distinct f = true → ∀ kv ∈ f, alookup f kv.1 = some kv.2 := by
  intro f
  induction f with
  | nil => intro _ kv hkv; simp at hkv
  | cons p rest ih =>
    intro hd kv hkv
    obtain ⟨k0, v0⟩ := p
    rw [fields_distinct, Bool.and_eq_true] at hd
    obtain ⟨hnot, hrest⟩ := hd
    rcases List.mem_cons.mp hkv with rfl | hmem
    · simp [alookup]
    · have hx : rest.any (fun kv => kv.1 == k0) = false := by
        cases hX : rest.any (fun kv => kv.1 == k0) with
        | false => rfl
        | true => rw [hX] at hnot; exact Bool.noConfusion hnot
      have hne : (k0 == kv.1) = false := by
        have h1 := List.any_eq_false.mp hx kv hmem
        have h2 : kv.1 ≠ k0 := fun hh => h1 (by rw [hh]; exact beq_self_eq_true k0)
        exact beq_eq_false_iff_ne.mpr (Ne.symm h2)
      rw [alookup, hne]
      simp only [Bool.false_eq_true, if_false]
      exact ih hrest kv hmem

theorem param_fields_match_self (f : Fields) (h : fields_distinct f = true) :
    param_fields_match f f = true :=
  (param_fields_match_iff_lemma f f).mpr (alookup_self_of_distinct f h)

theorem check_pattern_param_self (kb : KnowledgeBase) (i : Nat) (p : Pattern)
    (h : reflexive_safe_pattern p = true) :
    kb.check_pattern_param i p p = .ok .True := by
  cases p with
  | Instance tag f =>
    have hd : fields_distinct f = true := h
    unfold KnowledgeBase.check_pattern_param
    simp [param_fields_match_self f hd]
  | Dictionary f =>
    have hd : fields_distinct f = true := h
    unfold KnowledgeBase.check_pattern_param
    simp [param_fields_match_self f hd]

theorem check_value_param_self (kb : KnowledgeBase) (i : Nat) (v : Value) (rt : Rule)
    (h : reflexive_safe_value v = true) :
    kb.check_value_param i v v rt = .ok .True := by
  cases v with
  | List l =>
    have hrest : has_rest_var l = false := by
      have h2 : (!has_rest_var l) = true := h
      cases hX : has_rest_var l with
      | false => rfl
      | true => rw [hX] at h2; exact Bool.noConfusion h2
    have hall : (l.all fun t => l.any fun u => valueBeq u t) = true := by
      rw [List.all_eq_true]
      intro t ht
      exact (mem_iff_anyBeq l t).mpr ht
    simp [KnowledgeBase.check_value_param, hrest, hall]
  | Dictionary f =>
    have hd : fields_distinct f = true := h
    simp [KnowledgeBase.check_value_param, param_fields_match_self f hd]
  | Variable s => simp [KnowledgeBase.check_value_param, valueBeq_refl]
  | RestVariable s => simp [KnowledgeBase.check_value_param, valueBeq_refl]
  | String s => simp [KnowledgeBase.check_value_param, valueBeq_refl]
  | Number n => simp [KnowledgeBase.check_value_param, valueBeq_refl]
  | Boolean b => simp [KnowledgeBase.check_value_param, valueBeq_refl]
  | Pattern p => simp [KnowledgeBase.check_value_param, valueBeq_refl]
  | ExternalInstance eid => simp [KnowledgeBase.check_value_param, valueBeq_refl]
  | Expression o a => simp [KnowledgeBase.check_value_param, valueBeq_refl]
  | Call n a => simp [KnowledgeBase.check_value_param, valueBeq_refl]

theorem check_param_self (kb : KnowledgeBase) (i : Nat) (p : Parameter) (R T : Rule)
    (h : reflexive_safe_param p = true) :
    kb.check_param i p R p T = .ok .True := by
  obtain ⟨pv, spec⟩ := p
  cases spec with
  | none =>
    cases pv with
    | Variable s => rfl
    | RestVariable s => exact check_value_param_self kb i (.RestVariable s) T h
    | String s => exact check_value_param_self kb i (.String s) T h
    | Number n => exact check_value_param_self kb i (.Number n) T h
    | Boolean b => exact check_value_param_self kb i (.Boolean b) T h
    | List l => exact check_value_param_self kb i (.List l) T h
    | Dictionary f => exact check_value_param_self kb i (.Dictionary f) T h
    | Pattern pp => exact check_value_param_self kb i (.Pattern pp) T h
    | ExternalInstance eid => exact check_value_param_self kb i (.ExternalInstance eid) T h
    | Expression o a => exact check_value_param_self kb i (.Expression o a) T h
    | Call n a => exact check_value_param_self kb i (.Call n a) T h
  | some sv =>
    cases pv with
    | Variable s =>
      cases sv with
      | Pattern pat =>
        cases pat with
        | Instance tag f => exact check_pattern_param_self kb i (.Instance tag f) h
        | Dictionary f => exact check_pattern_param_self kb i (.Dictionary f) h
      | Variable s2 => exact check_value_param_self kb i (.Variable s2) T h
      | RestVariable s2 => exact check_value_param_self kb i (.RestVariable s2) T h
      | String s2 => exact check_value_param_self kb i (.String s2) T h
      | Number n => exact check_value_param_self kb i (.Number n) T h
      | Boolean b => exact check_value_param_self kb i (.Boolean b) T h
      | List l => exact check_value_param_self kb i (.List l) T h
      | Dictionary f => exact check_value_param_self kb i (.Dictionary f) T h
      | ExternalInstance eid => exact check_value_param_self kb i (.ExternalInstance eid) T h
      | Expression o a => exact check_value_param_self kb i (.Expression o a) T h
      | Call n a => exact check_value_param_self kb i (.Call n a) T h
    | RestVariable s => exact Bool.noConfusion h
    | String s => exact Bool.noConfusion h
    | Number n => exact Bool.noConfusion h
    | Boolean b => exact Bool.noConfusion h
    | List l => exact Bool.noConfusion h
    | Dictionary f => exact Bool.noConfusion h
    | Pattern pp => exact Bool.noConfusion h
    | ExternalInstance eid => exact Bool.noConfusion h
    | Expression o a => exact Bool.noConfusion h
    | Call n a => exact Bool.noConfusion h

theorem check_params_from_self (kb : KnowledgeBase) (R T : Rule) :
    ∀ (ps : List Parameter) (i : Nat), (∀ p ∈ ps, reflexive_safe_param p = true) →
    ∃ rs, kb.check_params_from R T i (ps.zip ps) = .ok rs ∧ firstFailure rs = .True := by
  intro ps
  induction ps with
  | nil => intro i _; exact ⟨[], rfl, rfl⟩
  | cons p rest ih =>
    intro i h
    obtain ⟨rs, hrs, hff⟩ := ih (i + 1) (fun q hq => h q (List.mem_cons_of_mem p hq))
    have hp := check_param_self kb i p R T (h p (List.mem_cons_self p rest))
    refine ⟨.True :: rs, ?_, ?_⟩
    · have hz : ((p :: rest).zip (p :: rest)) = (p, p) :: rest.zip rest := rfl
      rw [hz]
      simp only [KnowledgeBase.check_params_from]
      rw [hp, hrs]
      rfl
    · simp only [firstFailure]
      exact hff

/-- C4 (amended): `rule_params_match(R, R)` returns True for every rule R
whose parameters are reflexively safe — each parameter is a variable (with
any pattern specializer or rest-variable-free value specializer and
well-formed dictionary fields) or a bare such literal. Rules outside this
class break reflexivity: a literal list parameter containing `*rest`
aborts with `InvalidRuleType`, and a literal parameter carrying a
specializer fails the catch-all arm. -/
theorem rule_params_match_refl (kb : KnowledgeBase) (R : Rule)
    (h : ∀ p ∈ R.params, reflexive_safe_param p = true) :
    kb.rule_params_match R R = .ok .True := by
  obtain ⟨rs, hrs, hff⟩ := check_params_from_self kb R R R.params 1 h
  unfold KnowledgeBase.rule_params_match
  rw [bne_self_eq_false]
  simp only [Bool.false_eq_true, if_false]
  rw [hrs]
  show Except.ok (firstFailure rs) = Except.ok RuleParamMatch.True
  rw [hff]

/-- A rule whose only parameter is the literal list `[1, *rest]` (no
specializer), as produced by the polar head `f([1, *rest])`. -/
def restListRule : Rule :=
  ⟨"f", [⟨.List [.Number (.Integer 1), .RestVariable "rest"], none⟩], emptyBody, false⟩

/-- C4 counterexample: `rule_params_match` is not reflexive on all rules —
a rule whose parameter is a literal list containing a rest variable aborts
against itself with `InvalidRuleType` instead of returning True. -/
theorem rule_params_match_not_refl :
    emptyKB.rule_params_match restListRule restListRule =
      .error (.InvalidRuleType restListRule "Rule types cannot contain *rest variables.") ∧
    emptyKB.rule_params_match restListRule restListRule ≠ .ok .True := by decide

/-- A rule with four reflexively safe parameters: an instance pattern with
a field, a bare integer literal, an unspecialized variable, and a list
value specializer. -/
def selfMatchRule : Rule :=
  ⟨"f", [⟨.Variable "x", some (.Pattern (.Instance "Orange" [("id", .Number (.Integer 1))]))⟩,
         ⟨.Number (.Integer 3), none⟩,
         ⟨.Variable "y", none⟩,
         ⟨.Variable "z", some (.List [.Number (.Integer 1)])⟩], emptyBody, false⟩

/-- C4 witness: the four-parameter `selfMatchRule` matches itself, via
`rule_params_match_refl`. -/
theorem rule_params_match_refl_witness :
    fruitKB.rule_params_match selfMatchRule selfMatchRule = .ok .True :=
  rule_params_match_refl fruitKB selfMatchRule (by decide)

theorem except_bind_ok_eq {ε α β : Type} {x : Except ε α} {f : α → Except ε β} {a : α}
    (h : x = .ok a) : (do let v ← x; f v) = f a := by
  rw [h]
  rfl

/-- Whether a union member is a variable term naming a registered constant
(the well-formedness the member loop needs in order not to abort). -/
def memberOk (kb : KnowledgeBase) (m : Value) : Bool :=
  match m with
  | .Variable s => (alookup kb.constants s).isSome
  | _ => false

theorem member_loop_no_error (kb : KnowledgeBase) (ri : InstanceLiteral) (rtf : Fields)
    (idx : Nat) :
    ∀ (ms : List Value) (succ : Bool), (∀ m ∈ ms, memberOk kb m = true) →
    ∃ b, kb.check_union_member_loop ri rtf idx ms succ = .ok b ∧ (succ = true → b = true) := by
  intro ms
  induction ms with
  | nil => intro succ _; exact ⟨succ, rfl, fun hs => hs⟩
  | cons m rest ih =>
    intro succ h
    have hm := h m (List.mem_cons_self m rest)
    cases m with
    | Variable s =>
      have hreg : (alookup kb.constants s).isSome = true := hm
      obtain ⟨r, hr⟩ := subclass_check_no_error kb ri ⟨s, rtf⟩ idx hreg
      have hunf : kb.check_union_member_loop ri rtf idx (Value.Variable s :: rest) succ =
          (do
            let r ← kb.check_rule_instance_is_subclass_of_rule_type_instance ri ⟨s, rtf⟩ idx
            match r with
            | .True => kb.check_union_member_loop ri rtf idx rest true
            | .False _ => kb.check_union_member_loop ri rtf idx rest succ) := rfl
      cases r with
      | True =>
        obtain ⟨b2, hb2, himp⟩ := ih true (fun q hq => h q (List.mem_cons_of_mem _ hq))
        refine ⟨b2, ?_, fun _ => himp rfl⟩
        rw [hunf, except_bind_ok_eq hr]
        exact hb2
      | False msg =>
        obtain ⟨b2, hb2, himp⟩ := ih succ (fun q hq => h q (List.mem_cons_of_mem _ hq))
        refine ⟨b2, ?_, himp⟩
        rw [hunf, except_bind_ok_eq hr]
        exact hb2
    | RestVariable s => exact Bool.noConfusion hm
    | String s => exact Bool.noConfusion hm
    | Number n => exact Bool.noConfusion hm
    | Boolean b => exact Bool.noConfusion hm
    | List l => exact Bool.noConfusion hm
    | Dictionary f => exact Bool.noConfusion hm
    | Pattern p => exact Bool.noConfusion hm
    | ExternalInstance eid => exact Bool.noConfusion hm
    | Expression o a => exact Bool.noConfusion hm
    | Call n a => exact Bool.noConfusion hm

theorem member_loop_finds_true (kb : KnowledgeBase) (ri : InstanceLiteral) (rtf : Fields)
    (idx : Nat) :
    ∀ (ms : List Value) (succ : Bool), (∀ m ∈ ms, memberOk kb m = true) →
    (∃ s, Value.Variable s ∈ ms ∧
      kb.check_rule_instance_is_subclass_of_rule_type_instance ri ⟨s, rtf⟩ idx = .ok .True) →
    kb.check_union_member_loop ri rtf idx ms succ = .ok true := by
  intro ms
  induction ms with
  | nil =>
    intro succ _ hex
    obtain ⟨s, hs, -⟩ := hex
    simp at hs
  | cons m rest ih =>
    intro succ h hex
    have hm := h m (List.mem_cons_self m rest)
    cases m with
    | Variable s0 =>
      have hreg : (alookup kb.constants s0).isSome = true := hm
      obtain ⟨r, hr⟩ := subclass_check_no_error kb ri ⟨s0, rtf⟩ idx hreg
      have hunf : kb.check_union_member_loop ri rtf idx (Value.Variable s0 :: rest) succ =
          (do
            let r ← kb.check_rule_instance_is_subclass_of_rule_type_instance ri ⟨s0, rtf⟩ idx
            match r with
            | .True => kb.check_union_member_loop ri rtf idx rest true
            | .False _ => kb.check_union_member_loop ri rtf idx rest succ) := rfl
      obtain ⟨s, hsmem, hsub⟩ := hex
      cases r with
      | True =>
        obtain ⟨b2, hb2, himp⟩ :=
          member_loop_no_error kb ri rtf idx rest true (fun q hq => h q (List.mem_cons_of_mem _ hq))
        rw [hunf, except_bind_ok_eq hr, hb2, himp rfl]
      | False msg =>
        rcases List.mem_cons.mp hsmem with heq | hmem
        · obtain rfl : s = s0 := Value.Variable.inj heq
          rw [hsub] at hr
          exact RuleParamMatch.noConfusion (Except.ok.inj hr)
        · rw [hunf, except_bind_ok_eq hr]
          exact ih succ (fun q hq => h q (List.mem_cons_of_mem _ hq)) ⟨s, hmem, hsub⟩
    | RestVariable s => exact Bool.noConfusion hm
    | String s => exact Bool.noConfusion hm
    | Number n => exact Bool.noConfusion hm
    | Boolean b => exact Bool.noConfusion hm
    | List l => exact Bool.noConfusion hm
    | Dictionary f => exact Bool.noConfusion hm
    | Pattern p => exact Bool.noConfusion hm
    | ExternalInstance eid => exact Bool.noConfusion hm
    | Expression o a => exact Bool.noConfusion hm
    | Call n a => exact Bool.noConfusion hm

/-- C2 (amended): union membership is closed under MRO, provided every
member of the union is a registered constant. If `Variable C` is a member
of `resource_blocks.resources`, C is registered as an external instance
with id c, the MRO of D contains c, D is not itself a union tag, and every
resource member is a variable naming a registered constant, then
`f(x: D)` matches the rule type `f(x: Resource)` (empty specializer
fields on both sides). Without the all-members-registered hypothesis the
claim fails: the member loop aborts with `UnregisteredClass` on any
unregistered member, even after a successful match. -/
theorem union_member_mro_closed (kb : KnowledgeBase) (rname pname C D : Symbol)
    (c : Nat) (l : List Nat)
    (hDact : D ≠ ACTOR_UNION_NAME) (hDres : D ≠ RESOURCE_UNION_NAME)
    (hmem : Value.Variable C ∈ kb.resource_blocks.resources)
    (hC : alookup kb.constants C = some (.ExternalInstance c))
    (hmro : alookup kb.mro D = some l)
    (hc : c ∈ l)
    (hall : ∀ m ∈ kb.resource_blocks.resources, memberOk kb m = true) :
    kb.rule_params_match (specRule rname pname D [])
      (specRule rname pname RESOURCE_UNION_NAME []) = .ok .True := by
  have hRD : (RESOURCE_UNION_NAME == D) = false := beq_eq_false_iff_ne.mpr (Ne.symm hDres)
  have hDu1 : (D == ACTOR_UNION_NAME) = false := beq_eq_false_iff_ne.mpr hDact
  have hDu2 : (D == RESOURCE_UNION_NAME) = false := beq_eq_false_iff_ne.mpr hDres
  have hpfm : param_fields_match ([] : Fields) ([] : Fields) = true := rfl
  have hsub : kb.check_rule_instance_is_subclass_of_rule_type_instance ⟨D, []⟩ ⟨C, []⟩ 1 =
      .ok .True := by
    rw [subclass_check_char kb D C [] [] c l 1 hC hmro, if_pos hc, if_pos hpfm]
  have hu2 : kb.is_union (.Variable D) = false := by
    simp [KnowledgeBase.is_union, Value.is_actor_union, Value.is_resource_union, hDu1, hDu2]
  have hcp : kb.check_param 1
      (⟨.Variable pname, some (.Pattern (.Instance D []))⟩ : Parameter)
      (⟨rname, [⟨.Variable pname, some (.Pattern (.Instance D []))⟩], emptyBody, false⟩ : Rule)
      (⟨.Variable pname, some (.Pattern (.Instance RESOURCE_UNION_NAME []))⟩ : Parameter)
      (⟨rname, [⟨.Variable pname, some (.Pattern (.Instance RESOURCE_UNION_NAME []))⟩],
        emptyBody, false⟩ : Rule) =
      kb.check_pattern_param 1 (.Instance D []) (.Instance RESOURCE_UNION_NAME []) := rfl
  have hu1 : kb.is_union (.Variable RESOURCE_UNION_NAME) = true := rfl
  have hmembers : kb.get_union_members (.Variable RESOURCE_UNION_NAME) =
      kb.resource_blocks.resources := rfl
  have hpat : kb.check_pattern_param 1 (.Instance D []) (.Instance RESOURCE_UNION_NAME []) =
      .ok .True := by
    cases hin : kb.resource_blocks.resources.any (fun m => valueBeq m (.Variable D)) with
    | true =>
      simp only [KnowledgeBase.check_pattern_param, hRD, hu1, hu2, hmembers, hin, hpfm]
      simp
    | false =>
      have hloop := member_loop_finds_true kb ⟨D, []⟩ [] 1
        kb.resource_blocks.resources false hall ⟨C, hmem, hsub⟩
      simp only [KnowledgeBase.check_pattern_param, hRD, hu1, hu2, hmembers, hin,
        Bool.false_eq_true, Bool.not_false, if_false, if_true]
      rw [except_bind_ok_eq hloop]
      simp [hpfm]
  rw [specRule, specRule, rule_params_match_single, hcp, hpat]
  rfl

/-- The counterexample KB for C2: the Resource union has a registered
member C (external instance 1) and an unregistered member Bad; D has MRO
`[2, 1]`, so D is a subclass of C. -/
def badUnionKB : KnowledgeBase :=
  { emptyKB with
    constants := [("C", .ExternalInstance 1), ("D", .ExternalInstance 2)]
    mro := [("D", [2, 1])]
    resource_blocks := ⟨[], [.Variable "Bad", .Variable "C"], [], []⟩ }

/-- C2 counterexample: all hypotheses of the claim hold in `badUnionKB`
(C is a resource member registered as external instance 1, the MRO of D
contains 1, fields are empty on both sides), yet `f(x: D)` does not match
the rule type `f(x: Resource)` — the member loop aborts with
`UnregisteredClass Bad` because the union also contains an unregistered
member, and the loop runs over every member even after a success. -/
theorem union_member_mro_cex :
    (Value.Variable "C") ∈ badUnionKB.resource_blocks.resources ∧
    alookup badUnionKB.constants "C" = some (.ExternalInstance 1) ∧
    alookup badUnionKB.mro "D" = some [2, 1] ∧ (1 : Nat) ∈ [2, 1] ∧
    badUnionKB.rule_params_match (specRule "f" "x" "D" [])
      (specRule "f" "x" RESOURCE_UNION_NAME []) =
      .error (.UnregisteredClass (.Variable "Bad")) ∧
    badUnionKB.rule_params_match (specRule "f" "x" "D" [])
      (specRule "f" "x" RESOURCE_UNION_NAME []) ≠ .ok .True := by decide

/-- The well-behaved KB for the C2 witness: the Resource union has the
single registered member C. -/
def goodUnionKB : KnowledgeBase :=
  { emptyKB with
    constants := [("C", .ExternalInstance 1), ("D", .ExternalInstance 2)]
    mro := [("D", [2, 1])]
    resource_blocks := ⟨[], [.Variable "C"], [], []⟩ }

/-- C2 witness: with every resource member registered, `f(x: D)` matches
the rule type `f(x: Resource)` through the MRO of D, via
`union_member_mro_closed`. -/
theorem union_member_mro_closed_witness :
    goodUnionKB.rule_params_match (specRule "f" "x" "D" [])
      (specRule "f" "x" RESOURCE_UNION_NAME []) = .ok .True :=
  union_member_mro_closed goodUnionKB "f" "x" "C" "D" 1 [2, 1]
    (by decide) (by decide) (by decide) (by decide) (by decide) (by decide) (by decide)

/-- Whether a validation error is a `MissingRequiredRule`. -/
def isMissingRequired : ValidationError → Bool
  | .MissingRequiredRule _ => true
  | _ => false

theorem check_value_param_error_kind (kb : KnowledgeBase) (i : Nat) (rv rtv : Value)
    (rt : Rule) (e : ValidationError)
    (h : kb.check_value_param i rv rtv rt = .error e) : isMissingRequired e = false := by
  unfold KnowledgeBase.check_value_param at h
  repeat' split at h
  all_goals try exact Except.noConfusion h
  all_goals (obtain rfl := Except.error.inj h; rfl)

theorem subclass_error_kind (kb : KnowledgeBase) (ri rti : InstanceLiteral) (idx : Nat)
    (e : ValidationError)
    (h : kb.check_rule_instance_is_subclass_of_rule_type_instance ri rti idx = .error e) :
    isMissingRequired e = false := by
  unfold KnowledgeBase.check_rule_instance_is_subclass_of_rule_type_instance at h
  rcases except_bind_eq_error h with h1 | ⟨t, h1, h2⟩
  · unfold KnowledgeBase.get_registered_class at h1
    split at h1
    · exact Except.noConfusion h1
    · obtain rfl := Except.error.inj h1
      rfl
  · cases t with
    | ExternalInstance iid =>
      cases h3 : alookup kb.mro ri.tag with
      | none => rw [h3] at h2; exact Except.noConfusion h2
      | some rule_mro =>
        rw [h3] at h2
        cases hcc : rule_mro.contains iid with
        | true =>
          have hmem := (nat_contains_iff rule_mro iid).mp hcc
          cases hpp : param_fields_match rti.fields ri.fields with
          | true => simp [hcc, hmem, hpp] at h2
          | false => simp [hcc, hmem, hpp] at h2
        | false =>
          have hnm : iid ∉ rule_mro := fun hmm => by
            rw [(nat_contains_iff rule_mro iid).mpr hmm] at hcc
            exact Bool.noConfusion hcc
          simp [hcc, hnm] at h2
    | Variable s => exact Except.noConfusion h2
    | RestVariable s => exact Except.noConfusion h2
    | String s => exact Except.noConfusion h2
    | Number n => exact Except.noConfusion h2
    | Boolean b => exact Except.noConfusion h2
    | List l => exact Except.noConfusion h2
    | Dictionary d => exact Except.noConfusion h2
    | Pattern p => exact Except.noConfusion h2
    | Expression o a => exact Except.noConfusion h2
    | Call n a => exact Except.noConfusion h2

theorem member_loop_error_kind (kb : KnowledgeBase) (ri : InstanceLiteral) (rtf : Fields)
    (idx : Nat) :
    ∀ (ms : List Value) (succ : Bool) (e : ValidationError),
    kb.check_union_member_loop ri rtf idx ms succ = .error e →
    isMissingRequired e = false := by
  intro ms
  induction ms with
  | nil => intro succ e h; exact Except.noConfusion h
  | cons m rest ih =>
    intro succ e h
    have hunf : kb.check_union_member_loop ri rtf idx (m :: rest) succ =
        (do
          let r ← kb.check_rule_instance_is_subclass_of_rule_type_instance ri
            ⟨(Value.as_symbol m).getD "", rtf⟩ idx
          match r with
          | .True => kb.check_union_member_loop ri rtf idx rest true
          | .False _ => kb.check_union_member_loop ri rtf idx rest succ) := rfl
    rw [hunf] at h
    rcases except_bind_eq_error h with h1 | ⟨r, h1, h2⟩
    · exact subclass_error_kind kb ri _ idx e h1
    · cases r with
      | True => exact ih true e h2
      | False m2 => exact ih succ e h2

theorem check_pattern_param_error_kind (kb : KnowledgeBase) (i : Nat) (rp rtp : Pattern)
    (e : ValidationError)
    (h : kb.check_pattern_param i rp rtp = .error e) : isMissingRequired e = false := by
  unfold KnowledgeBase.check_pattern_param at h
  repeat' split at h
  all_goals try exact Except.noConfusion h
  all_goals try exact subclass_error_kind kb _ _ i e h
  all_goals (
    rcases except_bind_eq_error h with h1 | ⟨succ, h1, h2⟩
    · exact member_loop_error_kind kb _ _ i _ _ e h1
    · repeat' split at h2
      all_goals exact Except.noConfusion h2)

theorem check_param_error_kind (kb : KnowledgeBase) (i : Nat) (rp : Parameter) (R : Rule)
    (rtp : Parameter) (T : Rule) (e : ValidationError)
    (h : kb.check_param i rp R rtp T = .error e) : isMissingRequired e = false := by
  unfold KnowledgeBase.check_param at h
  repeat' split at h
  all_goals try exact Except.noConfusion h
  all_goals try exact check_pattern_param_error_kind kb i _ _ e h
  all_goals try exact check_value_param_error_kind kb i _ _ T e h
  all_goals try (obtain rfl := Except.error.inj h; rfl)
  all_goals (
    rcases except_bind_eq_error h with h1 | ⟨lit, h1, h2⟩
    · exact Except.noConfusion h1
    · exact check_pattern_param_error_kind kb i _ _ e h2)

theorem check_params_from_error_kind (kb : KnowledgeBase) (r rt : Rule) :
    ∀ (ps : List (Parameter × Parameter)) (i : Nat) (e : ValidationError),
    kb.check_params_from r rt i ps = .error e → isMissingRequired e = false := by
  intro ps
  induction ps with
  | nil => intro i e h; exact Except.noConfusion h
  | cons pq rest ih =>
    intro i e h
    obtain ⟨p, q⟩ := pq
    unfold KnowledgeBase.check_params_from at h
    rcases except_bind_eq_error h with h1 | ⟨r1, h1, h2⟩
    · exact check_param_error_kind kb i p r q rt e h1
    · rcases except_bind_eq_error h2 with h3 | ⟨rs, h3, h4⟩
      · exact ih (i + 1) e h3
      · exact Except.noConfusion h4

theorem rule_params_match_error_kind (kb : KnowledgeBase) (r rt : Rule) (e : ValidationError)
    (h : kb.rule_params_match r rt = .error e) : isMissingRequired e = false := by
  unfold KnowledgeBase.rule_params_match at h
  split at h
  · exact Except.noConfusion h
  · rcases except_bind_eq_error h with h1 | ⟨rs, h1, h2⟩
    · exact check_params_from_error_kind kb r rt _ 1 e h1
    · exact Except.noConfusion h2

theorem collect_type_results_error_kind (kb : KnowledgeBase) (r : Rule) :
    ∀ (types : List Rule) (e : ValidationError),
    kb.collect_type_results r types = .error e → isMissingRequired e = false := by
  intro types
  induction types with
  | nil => intro e h; exact Except.noConfusion h
  | cons rt rest ih =>
    intro e h
    unfold KnowledgeBase.collect_type_results at h
    rcases except_bind_eq_error h with h1 | ⟨r1, h1, h2⟩
    · exact rule_params_match_error_kind kb r rt e h1
    · rcases except_bind_eq_error h2 with h3 | ⟨rs, h3, h4⟩
      · exact ih e h3
      · exact Except.noConfusion h4

theorem check_rules_of_name_error_kind (kb : KnowledgeBase) (types : List Rule) :
    ∀ (rs : List Rule) (e : ValidationError),
    kb.check_rules_of_name types rs = .error e → isMissingRequired e = false := by
  intro rs
  induction rs with
  | nil => intro e h; exact Except.noConfusion h
  | cons r rest ih =>
    intro e h
    unfold KnowledgeBase.check_rules_of_name at h
    rcases except_bind_eq_error h with h1 | ⟨results, h1, h2⟩
    · exact collect_type_results_error_kind kb r types e h1
    · split at h2
      · exact ih e h2
      · obtain rfl := Except.error.inj h2
        rfl

theorem check_all_rules_error_kind (kb : KnowledgeBase) :
    ∀ (grs : List (Symbol × GenericRule)) (e : ValidationError),
    kb.check_all_rules grs = .error e → isMissingRequired e = false := by
  intro grs
  induction grs with
  | nil => intro e h; exact Except.noConfusion h
  | cons g rest ih =>
    intro e h
    obtain ⟨rule_name, gr⟩ := g
    unfold KnowledgeBase.check_all_rules at h
    split at h
    · rcases except_bind_eq_error h with h1 | ⟨u, h1, h2⟩
      · exact check_rules_of_name_error_kind kb _ gr.rules e h1
      · exact ih e h2
    · exact ih e h

theorem scan_for_match_error_kind (kb : KnowledgeBase) (rt : Rule) :
    ∀ (rs : List Rule) (e : ValidationError),
    kb.scan_for_match rt rs = .error e → isMissingRequired e = false := by
  intro rs
  induction rs with
  | nil => intro e h; exact Except.noConfusion h
  | cons r rest ih =>
    intro e h
    unfold KnowledgeBase.scan_for_match at h
    rcases except_bind_eq_error h with h1 | ⟨m, h1, h2⟩
    · exact rule_params_match_error_kind kb r rt e h1
    · cases m with
      | True => exact Except.noConfusion h2
      | False msg => exact ih e h2

/-- The Phase B coverage of one required rule type: scan the rules under
its name for a match; an absent name counts as uncovered. -/
def KnowledgeBase.required_coverage (kb : KnowledgeBase) (rule_type : Rule) :
    ValidationResult Bool :=
  match alookup kb.rules rule_type.name with
  | some gr => kb.scan_for_match rule_type gr.rules
  | none => .ok false

theorem check_required_missing_sound (kb : KnowledgeBase) :
    ∀ (req : List Rule) (T : Rule),
    kb.check_required req = .error (.MissingRequiredRule T) →
    T ∈ req ∧ kb.required_coverage T = .ok false := by
  intro req
  induction req with
  | nil => intro T h; exact Except.noConfusion h
  | cons rt rest ih =>
    intro T h
    unfold KnowledgeBase.check_required at h
    split at h
    next gr hgr =>
      rcases except_bind_eq_error h with h1 | ⟨fm, h1, h2⟩
      · have hk := scan_for_match_error_kind kb rt gr.rules _ h1
        exact absurd hk (by simp [isMissingRequired])
      · split at h2
        next hfm =>
          obtain rfl : rt = T :=
            ValidationError.MissingRequiredRule.inj (Except.error.inj h2)
          have hfm2 : fm = false := by
            cases fm with
            | false => rfl
            | true => exact Bool.noConfusion hfm
          subst hfm2
          refine ⟨List.mem_cons_self _ _, ?_⟩
          unfold KnowledgeBase.required_coverage
          rw [hgr]
          exact h1
        next hfm =>
          obtain ⟨hmem, hcov⟩ := ih T h2
          exact ⟨List.mem_cons_of_mem _ hmem, hcov⟩
    next hnone =>
      obtain rfl : rt = T :=
        ValidationError.MissingRequiredRule.inj (Except.error.inj h)
      refine ⟨List.mem_cons_self _ _, ?_⟩
      unfold KnowledgeBase.required_coverage
      rw [hnone]

theorem check_required_missing_complete (kb : KnowledgeBase) :
    ∀ (l1 : List Rule) (T : Rule) (l2 : List Rule),
    (∀ U ∈ l1, kb.required_coverage U = .ok true) →
    kb.required_coverage T = .ok false →
    kb.check_required (l1 ++ T :: l2) = .error (.MissingRequiredRule T) := by
  intro l1
  induction l1 with
  | nil =>
    intro T l2 _ hcov
    unfold KnowledgeBase.required_coverage at hcov
    show kb.check_required (T :: l2) = .error (.MissingRequiredRule T)
    unfold KnowledgeBase.check_required
    cases hgr : alookup kb.rules T.name with
    | some gr =>
      rw [hgr] at hcov
      have hcov2 : kb.scan_for_match T gr.rules = .ok false := hcov
      show (do
        let found_match ← kb.scan_for_match T gr.rules
        if (!found_match) = true then Except.error (ValidationError.MissingRequiredRule T)
        else kb.check_required l2) = Except.error (ValidationError.MissingRequiredRule T)
      rw [except_bind_ok_eq hcov2]
      rfl
    | none => rfl
  | cons U rest ih =>
    intro T l2 hall hcov
    have hU := hall U (List.mem_cons_self _ _)
    unfold KnowledgeBase.required_coverage at hU
    show kb.check_required (U :: (rest ++ T :: l2)) = .error (.MissingRequiredRule T)
    unfold KnowledgeBase.check_required
    cases hgr : alookup kb.rules U.name with
    | none =>
      rw [hgr] at hU
      have hU2 : (false : Bool) = true := Except.ok.inj hU
      exact Bool.noConfusion hU2
    | some gr =>
      rw [hgr] at hU
      have hU2 : kb.scan_for_match U gr.rules = .ok true := hU
      show (do
        let found_match ← kb.scan_for_match U gr.rules
        if (!found_match) = true then Except.error (ValidationError.MissingRequiredRule U)
        else kb.check_required (rest ++ T :: l2)) =
        Except.error (ValidationError.MissingRequiredRule T)
      rw [except_bind_ok_eq hU2]
      simp only [Bool.not_true, Bool.false_eq_true, if_false]
      exact ih T l2 (fun V hV => hall V (List.mem_cons_of_mem _ hV)) hcov

theorem validate_missing_sound (kb : KnowledgeBase) (T : Rule)
    (h : kb.validate_rule_types = .error (.MissingRequiredRule T)) :
    T ∈ kb.rule_types.required_rule_types ∧ kb.required_coverage T = .ok false := by
  unfold KnowledgeBase.validate_rule_types at h
  rcases except_bind_eq_error h with h1 | ⟨u, h1, h2⟩
  · have hk := check_all_rules_error_kind kb kb.rules _ h1
    exact absurd hk (by simp [isMissingRequired])
  · exact check_required_missing_sound kb _ T h2

theorem validate_missing_complete (kb : KnowledgeBase) (T : Rule) (l1 l2 : List Rule)
    (hreq : kb.rule_types.required_rule_types = l1 ++ T :: l2)
    (hprev : ∀ U ∈ l1, kb.required_coverage U = .ok true)
    (hcov : kb.required_coverage T = .ok false)
    (hA : kb.check_all_rules kb.rules = .ok ()) :
    kb.validate_rule_types = .error (.MissingRequiredRule T) ∧
    ∀ f, KnowledgeBase.validate_rules f kb = .Error (.MissingRequiredRule T) :: f kb := by
  have hB := check_required_missing_complete kb l1 T l2 hprev hcov
  have hv : kb.validate_rule_types = .error (.MissingRequiredRule T) := by
    unfold KnowledgeBase.validate_rule_types
    rw [except_bind_ok_eq hA, hreq]
    exact hB
  refine ⟨hv, fun f => ?_⟩
  unfold KnowledgeBase.validate_rules
  rw [hv]
  rfl

/-- C1 (amended): a `MissingRequiredRule` diagnostic identifies a required
rule type that no rule covers, and only the first uncovered required rule
type (in store order) is reported per call, Phase A permitting.
Soundness: if `validate_rule_types` reports `MissingRequiredRule T` then T
is in the required set and no rule under `T.name` satisfies
`rule_params_match` against T (`required_coverage` is Ok false).
Completeness: if Phase A succeeds, every required rule type before T is
covered and T is not, then `validate_rule_types` reports exactly
`MissingRequiredRule T`, and `validate_rules` returns it followed by the
undefined-rule-call diagnostics. Later uncovered required types are not
reported in the same call. -/
theorem missing_required_first_only (kb : KnowledgeBase) (T : Rule) :
    (kb.validate_rule_types = .error (.MissingRequiredRule T) →
      T ∈ kb.rule_types.required_rule_types ∧ kb.required_coverage T = .ok false) ∧
    (∀ l1 l2, kb.rule_types.required_rule_types = l1 ++ T :: l2 →
      (∀ U ∈ l1, kb.required_coverage U = .ok true) →
      kb.required_coverage T = .ok false →
      kb.check_all_rules kb.rules = .ok () →
      kb.validate_rule_types = .error (.MissingRequiredRule T) ∧
      ∀ f, KnowledgeBase.validate_rules f kb = .Error (.MissingRequiredRule T) :: f kb) :=
  ⟨validate_missing_sound kb T,
   fun l1 l2 h1 h2 h3 h4 => validate_missing_complete kb T l1 l2 h1 h2 h3 h4⟩

/-- The first required rule type of the C1 counterexample KB. -/
def twoReqT1 : Rule := ⟨"f", [], emptyBody, true⟩

/-- The second required rule type of the C1 counterexample KB. -/
def twoReqT2 : Rule := ⟨"g", [], emptyBody, true⟩

/-- A KB with two required rule types and no rules at all. -/
def twoReqKB : KnowledgeBase :=
  { emptyKB with rule_types := ⟨[("f", [twoReqT1]), ("g", [twoReqT2])]⟩ }

/-- C1 counterexample: `twoReqT2` is required and has no generic rule under
its name, yet a single `validate_rules` call does not report
`MissingRequiredRule twoReqT2` — only the first uncovered required rule
type `twoReqT1` is reported. -/
theorem missing_required_second_not_reported :
    twoReqT2 ∈ twoReqKB.rule_types.required_rule_types ∧
    alookup twoReqKB.rules twoReqT2.name = none ∧
    KnowledgeBase.validate_rules (fun _ => []) twoReqKB =
      [.Error (.MissingRequiredRule twoReqT1)] ∧
    Diagnostic.Error (.MissingRequiredRule twoReqT2) ∉
      KnowledgeBase.validate_rules (fun _ => []) twoReqKB := by decide

/-- A KB with a single uncovered required rule type. -/
def oneReqKB : KnowledgeBase :=
  { emptyKB with rule_types := ⟨[("f", [twoReqT1])]⟩ }

/-- C1 witness: in a KB whose only required rule type `f` has no rules,
`validate_rule_types` reports `MissingRequiredRule` for it and
`validate_rules` returns exactly that diagnostic, via
`missing_required_first_only`. -/
theorem missing_required_first_only_witness :
    oneReqKB.validate_rule_types = .error (.MissingRequiredRule twoReqT1) ∧
    KnowledgeBase.validate_rules (fun _ => []) oneReqKB =
      .Error (.MissingRequiredRule twoReqT1) :: [] :=
  have h := (missing_required_first_only oneReqKB twoReqT1).2 [] [] (by decide)
    (by decide) (by decide) (by decide)
  ⟨h.1, h.2 (fun _ => [])⟩

end Polar
